import Mathlib

/-
  A shallow embedding of the forgo rendering engine (src/index.ts).

  The live document tree is modelled as a store of nodes indexed by numeric
  ids (`Doc.nodes`).  JavaScript object identity of the component-state
  records (`NodeAttachedComponentState`) and of the render-args records
  (`ForgoRenderArgs`, whose `element.node` field is mutated in place and is
  shared between state records) is modelled by indirection through two more
  id-indexed stores (`Doc.states`, `Doc.argsSt`).  Lifecycle callbacks
  (mount / unmount / afterRender / error) and render invocations are
  observable through an event log (`Doc.events`).  Component render
  functions are arbitrary Lean functions that may "throw" (return
  `Except.error`); the engine's mutually recursive render functions are
  made total with a fuel parameter, fuel exhaustion being reported by a
  dedicated error that is distinct from every JavaScript exception.
-/

namespace Forgo

/-- JavaScript primitive values used for keys, props and thrown values. -/
inductive JSValue where
  | str (s : String)
  | num (n : Int)
  | bool (b : Bool)
  | null
  | undef
deriving DecidableEq, Repr

/-- JavaScript truthiness for the values we model. -/
def truthy : JSValue → Bool
  | .str s => s ≠ ""
  | .num n => n ≠ 0
  | .bool b => b
  | .null => false
  | .undef => false

/-- Truthiness of an optional key (`undefined` when absent). -/
def truthyOpt : Option JSValue → Bool
  | some v => truthy v
  | none => false

/-- `stringOfPrimitiveNode` from the source: null/undefined render as the
empty string, other primitives via `toString`. -/
def jsToString : JSValue → String
  | .str s => s
  | .num n => toString n
  | .bool b => if b then "true" else "false"
  | .null => ""
  | .undef => ""

mutual
/-- A `ForgoNode`: primitive, DOM element description, custom component
description, or an array (fragment). -/
inductive ForgoNode where
  | prim (v : JSValue)
  | elem (tag : String) (key : Option JSValue) (props : PropsData)
  | comp (ctorId : Nat) (key : Option JSValue) (props : PropsData)
  | arr (xs : List ForgoNode)

/-- The props bag of an element/component description: the `children`
prop (absent = `undefined`), an optional `ref` cell id, and the remaining
attribute entries. -/
inductive PropsData where
  | mk (children : Option ForgoNode) (refCell : Option Nat)
      (attrs : List (String × JSValue))
end

def PropsData.children : PropsData → Option ForgoNode
  | .mk c _ _ => c

def PropsData.refCell : PropsData → Option Nat
  | .mk _ r _ => r

def PropsData.attrs : PropsData → List (String × JSValue)
  | .mk _ _ a => a

/-- Errors the engine can raise.  `structural` models engine-thrown
`Error`s, `typeErr` models JavaScript TypeErrors from undefined accesses,
`thrown` models values thrown by component code, and `fuelOut` is the
modelling artefact for fuel exhaustion (it is never caught by the
modelled error boundary and is distinct from every JavaScript
exception). -/
inductive EngErr where
  | structural (msg : String)
  | typeErr (msg : String)
  | thrown (v : JSValue)
  | fuelOut
deriving DecidableEq, Repr

/-- Errors of the public entry points: configuration errors thrown at the
entry-point call sites, or an engine error escaping the render pass. -/
inductive TopErr where
  | config (msg : String)
  | eng (e : EngErr)
deriving DecidableEq, Repr

/-- Observable lifecycle events, logged in order of occurrence. -/
inductive Event where
  | mountEv (sid : Nat)
  | unmountEv (sid : Nat)
  | afterRenderEv (sid : Nat) (previousNode : Option Nat)
  | renderEv (sid : Nat)
  | errorEv (e : EngErr)
deriving DecidableEq, Repr

/-- The `element` part of `ForgoRenderArgs`: the mutable back-reference to
the live node plus the component's index in the owning node's stack. -/
structure ArgsElement where
  node : Option Nat
  componentIndex : Nat
deriving DecidableEq, Repr

/-- Snapshot of a `ForgoRenderArgs` record as passed to callbacks. -/
structure RenderArgs where
  element : ArgsElement
deriving DecidableEq, Repr

/-- A component instance (`ForgoComponent`): its capabilities.  The
lifecycle callbacks are modelled by presence flags (their invocations are
logged as events); `render` may throw; `shouldUpdate` is optional. -/
structure ComponentVal where
  hasRender : Bool
  render : PropsData → RenderArgs → Except JSValue ForgoNode
  errorFn : Option (PropsData → RenderArgs → EngErr → ForgoNode)
  hasMount : Bool
  hasUnmount : Bool
  hasAfterRender : Bool
  shouldUpdate : Option (PropsData → PropsData → Bool)

/-- `NodeAttachedComponentState`: one mounted component's state record.
`argsId` points into the args store (the args object is shared by
reference between state records). -/
structure CompState where
  key : Option JSValue
  ctorId : Nat
  comp : ComponentVal
  props : PropsData
  argsId : Nat
  numNodes : Nat

/-- The kind of a live document node. -/
inductive NodeKind where
  | textNode (content : String)
  | elemNode (tag : String)
deriving DecidableEq, Repr

/-- `node.nodeType`: 3 for text nodes, 1 for elements. -/
def NodeKind.nodeType : NodeKind → Nat
  | .textNode _ => 3
  | .elemNode _ => 1

/-- `NodeAttachedState`: the `__forgo` record stored on a live node.
`components` holds state ids (the stack of component-state records). -/
structure NodeAttached where
  key : Option JSValue
  props : Option PropsData
  components : List Nat

/-- A live document node: its kind, optional attached forgo state, the
properties assigned onto it, its ordered children and its parent. -/
structure NodeRec where
  kind : NodeKind
  attached : Option NodeAttached
  domProps : List (String × JSValue)
  childIds : List Nat
  parent : Option Nat

/-- The whole mutable world: the document node store, the component-state
store, the render-args store, the ref-cell store, the event log and a
fresh-id counter shared by all stores. -/
structure Doc where
  nodes : List (Nat × NodeRec)
  states : List (Nat × CompState)
  argsSt : List (Nat × ArgsElement)
  refsSt : List (Nat × Option Nat)
  events : List Event
  fresh : Nat

/-- Association-list lookup. -/
def lookupA {α : Type} : List (Nat × α) → Nat → Option α
  | [], _ => none
  | (k2, v) :: rest, k => if k2 = k then some v else lookupA rest k

/-- Association-list update (replaces the binding, or appends it). -/
def setA {α : Type} : List (Nat × α) → Nat → α → List (Nat × α)
  | [], k, v => [(k, v)]
  | (k2, v2) :: rest, k, v =>
    if k2 = k then (k, v) :: rest else (k2, v2) :: setA rest k v

def Doc.updateNode (d : Doc) (k : Nat) (f : NodeRec → NodeRec) : Doc :=
  match lookupA d.nodes k with
  | some r => { d with nodes := setA d.nodes k (f r) }
  | none => d

def Doc.updateArgs (d : Doc) (k : Nat) (f : ArgsElement → ArgsElement) : Doc :=
  match lookupA d.argsSt k with
  | some r => { d with argsSt := setA d.argsSt k (f r) }
  | none => d

def Doc.updateState (d : Doc) (k : Nat) (f : CompState → CompState) : Doc :=
  match lookupA d.states k with
  | some r => { d with states := setA d.states k (f r) }
  | none => d

/-- The ordered child list of a node (empty for an unknown id). -/
def childIdsOf (d : Doc) (p : Nat) : List Nat :=
  match lookupA d.nodes p with
  | some r => r.childIds
  | none => []

/-- `getForgoState(node)`: the `__forgo` record, if any. -/
def getForgoStateD (d : Doc) (n : Nat) : Option NodeAttached :=
  match lookupA d.nodes n with
  | some r => r.attached
  | none => none

/-- `setForgoState(node, state)`. -/
def setForgoStateD (d : Doc) (n : Nat) (st : NodeAttached) : Doc :=
  d.updateNode n (fun r => { r with attached := some st })

def nodeTypeOf (d : Doc) (n : Nat) : Nat :=
  match lookupA d.nodes n with
  | some r => r.kind.nodeType
  | none => 0

/-- The current `element` record of an args object. -/
def argsValOf (d : Doc) (aid : Nat) : ArgsElement :=
  match lookupA d.argsSt aid with
  | some a => a
  | none => { node := none, componentIndex := 0 }

/-- The constructor reference stored in a component state (compared with
`===` in the source; states are compared through their ids here). -/
def stateCtorId (states : List (Nat × CompState)) (sid : Nat) : Option Nat :=
  match lookupA states sid with
  | some st => some st.ctorId
  | none => none

def logEvent (e : Event) (d : Doc) : Doc :=
  { d with events := d.events ++ [e] }

/-- `document.createTextNode` / `document.createElement`. -/
def createNode (k : NodeKind) (d : Doc) : Nat × Doc :=
  (d.fresh,
    { d with
      nodes := setA d.nodes d.fresh
        { kind := k, attached := none, domProps := [], childIds := [],
          parent := none },
      fresh := d.fresh + 1 })

def allocState (st : CompState) (d : Doc) : Nat × Doc :=
  (d.fresh,
    { d with states := setA d.states d.fresh st, fresh := d.fresh + 1 })

def allocArgs (a : ArgsElement) (d : Doc) : Nat × Doc :=
  (d.fresh,
    { d with argsSt := setA d.argsSt d.fresh a, fresh := d.fresh + 1 })

/-- `node.remove()` / detaching a node from its parent, if it has one. -/
def removeFromParent (nid : Nat) (d : Doc) : Doc :=
  match lookupA d.nodes nid with
  | none => d
  | some r =>
    match r.parent with
    | none => d
    | some p =>
      let d1 := d.updateNode p (fun pr => { pr with childIds := pr.childIds.erase nid })
      d1.updateNode nid (fun nr => { nr with parent := none })

/-- Insert `nid` immediately before the first occurrence of `r`
(callers pass a current child; an absent reference appends, matching
`insertBefore(node, undefined)`). -/
def insertBeforeList (l : List Nat) (nid r : Nat) : List Nat :=
  match l with
  | [] => [nid]
  | x :: rest => if x = r then nid :: x :: rest else x :: insertBeforeList rest nid r

/-- `parent.insertBefore(nid, ref)`: moves `nid` under `p` before `ref`
(append when `ref` is undefined). -/
def insertBeforeOp (p nid : Nat) (ref : Option Nat) (d : Doc) : Doc :=
  let d1 := removeFromParent nid d
  let d2 := d1.updateNode p (fun pr =>
    { pr with childIds :=
        match ref with
        | none => pr.childIds ++ [nid]
        | some r => insertBeforeList pr.childIds nid r })
  d2.updateNode nid (fun nr => { nr with parent := some p })

/-- Replace the first occurrence of `oldId` by `newId`. -/
def replaceInList (l : List Nat) (oldId newId : Nat) : List Nat :=
  match l with
  | [] => []
  | x :: rest => if x = oldId then newId :: rest else x :: replaceInList rest oldId newId

/-- `oldNode.replaceWith(newNode)`: a no-op when `oldNode` has no parent. -/
def replaceWithOp (oldId newId : Nat) (d : Doc) : Doc :=
  match lookupA d.nodes oldId with
  | none => d
  | some r =>
    match r.parent with
    | none => d
    | some p =>
      let d1 := removeFromParent newId d
      let d2 := d1.updateNode p (fun pr =>
        { pr with childIds := replaceInList pr.childIds oldId newId })
      let d3 := d2.updateNode oldId (fun nr => { nr with parent := none })
      d3.updateNode newId (fun nr => { nr with parent := some p })

/-- `parent.prepend(nid)`. -/
def prependOp (p nid : Nat) (d : Doc) : Doc :=
  let d1 := removeFromParent nid d
  let d2 := d1.updateNode p (fun pr => { pr with childIds := nid :: pr.childIds })
  d2.updateNode nid (fun nr => { nr with parent := some p })

/-- JavaScript `array[i]` for a possibly negative index. -/
def getAtInt {α : Type} (l : List α) (i : Int) : Option α :=
  if i < 0 then none else l.get? i.toNat

/-- Resolve a JavaScript `Array.prototype.slice` index against a length. -/
def jsIdx (len : Nat) (i : Int) : Nat :=
  if i < 0 then ((len : Int) + i).toNat else min i.toNat len

/-- JavaScript `array.slice(s, e)`. -/
def jsSlice {α : Type} (l : List α) (s e : Int) : List α :=
  let a := jsIdx l.length s
  let b := jsIdx l.length e
  (l.drop a).take (b - a)

/-- JavaScript `array.findIndex(x => x === nid)`. -/
def findIdxInt (l : List Nat) (nid : Nat) : Int :=
  match l.findIdx? (fun x => x = nid) with
  | some i => (i : Int)
  | none => -1

/-!  Lifecycle coordination (`findIndexOfFirstIncompatibleState`,
`unmountComponents`, `mountComponents`, `attachProps`,
`syncStateAndProps`, `unloadNodes`).  Callback invocations append to the
event log; no other part of the world is touched by a callback. -/

/-- Loop body of `findIndexOfFirstIncompatibleState`: walks the new
states, stopping at either stack's end or at the first constructor
mismatch. -/
def findIncompatAux (states : List (Nat × CompState)) (oldIds : List Nat) : List Nat → Nat → Nat
  | [], i => i
  | newId :: rest, i =>
    match oldIds.get? i with
    | none => i
    | some oldId =>
      if stateCtorId states oldId ≠ stateCtorId states newId then i
      else findIncompatAux states oldIds rest (i + 1)

/-- `findIndexOfFirstIncompatibleState(newStates, oldStates)`. -/
def findIndexOfFirstIncompatibleState (states : List (Nat × CompState))
    (newIds oldIds : List Nat) : Nat :=
  findIncompatAux states oldIds newIds 0

/-- The unmount events fired by `unmountComponents(states, from)`:
one per state from index `fromIdx` on whose component has an `unmount`
callback, in ascending index order. -/
def unmountEventsOf (states : List (Nat × CompState)) (ids : List Nat)
    (fromIdx : Nat) : List Event :=
  (ids.drop fromIdx).filterMap (fun sid =>
    match lookupA states sid with
    | some st => if st.comp.hasUnmount then some (.unmountEv sid) else none
    | none => none)

/-- `unmountComponents(states, from)`. -/
def unmountComponents (d : Doc) (ids : List Nat) (fromIdx : Nat) : Doc :=
  { d with events := d.events ++ unmountEventsOf d.states ids fromIdx }

/-- The mount events fired by `mountComponents(states, from)`. -/
def mountEventsOf (states : List (Nat × CompState)) (ids : List Nat)
    (fromIdx : Nat) : List Event :=
  (ids.drop fromIdx).filterMap (fun sid =>
    match lookupA states sid with
    | some st => if st.comp.hasMount then some (.mountEv sid) else none
    | none => none)

/-- `mountComponents(states, from)`. -/
def mountComponents (d : Doc) (ids : List Nat) (fromIdx : Nat) : Doc :=
  { d with events := d.events ++ mountEventsOf d.states ids fromIdx }

/-- The `afterRender` events fired at the end of `attachProps`: the
`previousNode` passed to each callback is the args node captured before
the args objects are repointed. -/
def afterRenderEvts (d : Doc) (pendingIds : List Nat) : List Event :=
  pendingIds.filterMap (fun sid =>
    match lookupA d.states sid with
    | some st =>
      if st.comp.hasAfterRender then
        some (.afterRenderEv sid (argsValOf d st.argsId).node)
      else none
    | none => none)

/-- `state.args.element.node = node` for every pending state. -/
def setArgsNodes : List Nat → Nat → Doc → Doc
  | [], _, d => d
  | sid :: rest, nid, d =>
    match lookupA d.states sid with
    | some st =>
      setArgsNodes rest nid (d.updateArgs st.argsId (fun a => { a with node := some nid }))
    | none => setArgsNodes rest nid d

/-- Assign one property onto a node (`node[key] = value`). -/
def setDomProp (d : Doc) (nid : Nat) (k : String) (v : JSValue) : Doc :=
  d.updateNode nid (fun r => { r with domProps := go r.domProps })
where
  go : List (String × JSValue) → List (String × JSValue)
    | [] => [(k, v)]
    | (k2, v2) :: rest => if k2 = k then (k, v) :: rest else (k2, v2) :: go rest

/-- Whether a description is a forgo element (`__is_forgo_element__`). -/
def isForgoElementB : ForgoNode → Bool
  | .elem _ _ _ => true
  | .comp _ _ _ => true
  | _ => false

def forgoNodeKey : ForgoNode → Option JSValue
  | .elem _ k _ => k
  | .comp _ k _ => k
  | _ => none

def forgoNodeProps : ForgoNode → Option PropsData
  | .elem _ _ p => some p
  | .comp _ _ p => some p
  | _ => none

/-- The prop-diffing part of `attachProps`: for every previously applied
prop entry (other than `children`) whose value differs from the new one,
assign `undefined`; then assign every new entry. -/
def applyPropsDiff (forgoNode : ForgoNode) (nid : Nat) (d : Doc) : Doc :=
  match forgoNodeProps forgoNode with
  | none => d
  | some newProps =>
    let d1 :=
      match getForgoStateD d nid with
      | some cur =>
        match cur.props with
        | some oldProps =>
          oldProps.attrs.foldl (fun acc kv =>
            let newVal := match lookupAttr newProps.attrs kv.1 with
              | some v2 => v2
              | none => JSValue.undef
            if newVal = kv.2 then acc else setDomProp acc nid kv.1 .undef) d
        | none => d
      | none => d
    newProps.attrs.foldl (fun acc kv => setDomProp acc nid kv.1 kv.2) d1
where
  lookupAttr : List (String × JSValue) → String → Option JSValue
    | [], _ => none
    | (k2, v) :: rest, k => if k2 = k then some v else lookupAttr rest k

/-- The node-mutating part of `attachProps`: prop diffing and the
overwrite of the node's attached `__forgo` state. -/
def attachPropsNode (forgoNode : ForgoNode) (nid : Nat) (pendingIds : List Nat)
    (d : Doc) : Doc :=
  if isForgoElementB forgoNode then
    let d1 := applyPropsDiff forgoNode nid d
    setForgoStateD d1 nid
      { key := forgoNodeKey forgoNode, props := forgoNodeProps forgoNode,
        components := pendingIds }
  else
    setForgoStateD d nid { key := none, props := none, components := pendingIds }

/-- `attachProps(forgoNode, node, pendingAttachStates)`: captures the
previous args nodes, repoints every pending args object at `nid`,
applies props and overwrites the attached state, then fires the
`afterRender` callbacks. -/
def attachProps (forgoNode : ForgoNode) (nid : Nat) (pendingIds : List Nat)
    (d : Doc) : Doc :=
  let evs := afterRenderEvts d pendingIds
  let d1 := setArgsNodes pendingIds nid d
  let d2 := attachPropsNode forgoNode nid pendingIds d1
  { d2 with events := d2.events ++ evs }

/-- `syncStateAndProps(forgoNode, newNode, targetNode, pendingAttachStates)`:
reads the old component stack off the target node, attaches props and the
new stack to the new node, then unmounts the old states from the
divergence index and mounts the new states from the same index. -/
def syncStateAndProps (forgoNode : ForgoNode) (newId targetId : Nat)
    (pendingIds : List Nat) (d : Doc) : Doc :=
  let oldComponents := (getForgoStateD d targetId).map NodeAttached.components
  let d1 := attachProps forgoNode newId pendingIds d
  match oldComponents with
  | some oldIds =>
    let idx := findIndexOfFirstIncompatibleState d1.states pendingIds oldIds
    let d2 := unmountComponents d1 oldIds idx
    mountComponents d2 pendingIds idx
  | none => mountComponents d1 pendingIds 0

/-- `unloadNodes(nodes)`: unmount every attached component state of each
node (from index 0), then remove the node from the tree. -/
def unloadNodes : List Nat → Doc → Doc
  | [], d => d
  | nid :: rest, d =>
    let d1 :=
      match getForgoStateD d nid with
      | some st => unmountComponents d st.components 0
      | none => d
    unloadNodes rest (removeFromParent nid d1)

/-! Candidate matchers. -/

/-- Result of the candidate search. -/
inductive CandidateSearchResult where
  | found (index : Nat)
  | notFound
deriving DecidableEq, Repr

/-- `tagName.toLowerCase()` (character-wise lowercasing; spelt out over
the character list so that it evaluates by kernel reduction). -/
def toLowerStr (s : String) : String :=
  String.mk (s.data.map Char.toLower)

/-- Whether the node at one window position matches a DOM-element
description (the per-index test of
`findReplacementCandidateForDOMElement`): a truthy key is compared
against the node's attached-state key, otherwise an element node's
lowercased tag name is compared against the description's type. -/
def domMatchesAt (d : Doc) (tag : String) (key : Option JSValue)
    (nodeIds : List Nat) (i : Nat) : Bool :=
  match nodeIds.get? i with
  | none => false
  | some nid =>
    if truthyOpt key then
      match getForgoStateD d nid with
      | some st => st.key = key
      | none => false
    else
      match lookupA d.nodes nid with
      | some r =>
        match r.kind with
        | .elemNode t => toLowerStr t = tag
        | .textNode _ => false
      | none => false

/-- Whether the node at one window position matches a component
description (the per-index test of
`findReplacementCandidateForCustomComponent`): only nodes carrying a
non-empty component stack participate; a truthy key is compared against
the first component state's key, otherwise the first state's constructor
reference is compared against the description's constructor. -/
def compMatchesAt (d : Doc) (ctorId : Nat) (key : Option JSValue)
    (nodeIds : List Nat) (i : Nat) : Bool :=
  match nodeIds.get? i with
  | none => false
  | some nid =>
    match getForgoStateD d nid with
    | some st =>
      match st.components.get? 0 with
      | some sid0 =>
        if truthyOpt key then
          match lookupA d.states sid0 with
          | some cs => cs.key = key
          | none => false
        else
          stateCtorId d.states sid0 = some ctorId
      | none => false
    | none => false

/-- Scan loop shared by both matchers: first match from `i` wins within
the remaining `k` window positions. -/
def scanCandidates (test : Nat → Bool) : Nat → Nat → CandidateSearchResult
  | _, 0 => .notFound
  | i, k + 1 => if test i then .found i else scanCandidates test (i + 1) k

/-- `findReplacementCandidateForDOMElement(forgoElement, nodes,
searchFrom, length)`.  The loop runs over the window positions
`searchFrom ≤ i < searchFrom + length`; callers keep the window inside
the child list. -/
def findReplacementCandidateForDOMElement (d : Doc) (tag : String)
    (key : Option JSValue) (nodeIds : List Nat) (searchFrom : Int)
    (length : Int) : CandidateSearchResult :=
  if searchFrom < 0 then .notFound
  else scanCandidates (domMatchesAt d tag key nodeIds) searchFrom.toNat length.toNat

/-- `findReplacementCandidateForCustomComponent(forgoElement, nodes,
searchFrom, length)`. -/
def findReplacementCandidateForCustomComponent (d : Doc) (ctorId : Nat)
    (key : Option JSValue) (nodeIds : List Nat) (searchFrom : Int)
    (length : Int) : CandidateSearchResult :=
  if searchFrom < 0 then .notFound
  else scanCandidates (compMatchesAt d ctorId key nodeIds) searchFrom.toNat length.toNat

/-! The render engine. -/

/-- Result of the render functions. -/
structure RenderResult where
  nodes : List Nat
deriving DecidableEq, Repr

/-- Outcome of an engine call: a value or an uncaught exception, in both
cases together with the (possibly mutated) document — JavaScript
exceptions do not roll back mutations. -/
inductive Res (α : Type) where
  | ok (a : α) (d : Doc)
  | err (e : EngErr) (d : Doc)

def Res.doc {α : Type} : Res α → Doc
  | .ok _ d => d
  | .err _ d => d

/-- `SearchableNodeInsertionOptions`. -/
structure SearchOpts where
  parentElement : Nat
  currentNodeIndex : Int
  length : Int
deriving DecidableEq, Repr

/-- `NodeInsertionOptions`. -/
inductive InsOpts where
  | detached
  | search (s : SearchOpts)
deriving DecidableEq, Repr

/-- Helper for the JavaScript `findIndex` against a possibly undefined
node reference: no live child is strictly equal to `undefined`. -/
def findIdxOptInt (l : List Nat) (x : Option Nat) : Int :=
  match x with
  | some nid => findIdxInt l nid
  | none => -1

mutual
/-- One entry of the loop of `flatten` from the source: an array
recurses, anything else is pushed as-is. -/
def flattenOne : ForgoNode → List ForgoNode
  | .arr xs => flattenNodes xs
  | x => [x]
termination_by structural x => x

/-- `flatten(array)`: recursively flattens nested arrays; no entry is
dropped. -/
def flattenNodes : List ForgoNode → List ForgoNode
  | [] => []
  | x :: rest => flattenOne x ++ flattenNodes rest
termination_by structural l => l
end

/-- Whether an entry is dropped by the top-level children filter
(`typeof x !== "undefined" && x !== null`). -/
def isNullOrUndef : ForgoNode → Bool
  | .prim .null => true
  | .prim .undef => true
  | _ => false

/-- The flattened child sequence walked by
`renderDOMElementChildNodes`: the `children` prop is wrapped into an
array if it is not one, filtered for null/undefined at the top level
only, and then recursively flattened. -/
def childSequenceOf (props : PropsData) : List ForgoNode :=
  flattenNodes
    ((match props.children with
      | some (.arr xs) => xs
      | some x => [x]
      | none => [ForgoNode.prim .undef]).filter (fun x => ! isNullOrUndef x))

/-- `renderText`: always creates a fresh text node; in search mode with a
non-empty window it replaces the node at the current position only when
that node is itself a text node, and inserts before it otherwise; with an
empty window it prepends or inserts at the current index. -/
def renderText (v : JSValue) (opts : InsOpts) (pendingIds : List Nat)
    (d : Doc) : Res RenderResult :=
  let p := createNode (.textNode (jsToString v)) d
  let tid := p.1
  let d0 := p.2
  match opts with
  | .detached =>
    .ok { nodes := [tid] } (syncStateAndProps (.prim v) tid tid pendingIds d0)
  | .search s =>
    let childNodes := childIdsOf d0 s.parentElement
    if s.length ≠ 0 then
      match getAtInt childNodes s.currentNodeIndex with
      | none => .err (.typeErr "Cannot read properties of undefined (reading nodeType)") d0
      | some targetId =>
        if nodeTypeOf d0 targetId = 3 then
          let d1 := syncStateAndProps (.prim v) tid targetId pendingIds d0
          .ok { nodes := [tid] } (replaceWithOp targetId tid d1)
        else
          let d1 := syncStateAndProps (.prim v) tid tid pendingIds d0
          let nextNode := getAtInt (childIdsOf d1 s.parentElement) s.currentNodeIndex
          .ok { nodes := [tid] } (insertBeforeOp s.parentElement tid nextNode d1)
    else
      let d1 := syncStateAndProps (.prim v) tid tid pendingIds d0
      let cs := childIdsOf d1 s.parentElement
      if cs.length = 0 ∨ s.currentNodeIndex = 0 then
        .ok { nodes := [tid] } (prependOp s.parentElement tid d1)
      else
        .ok { nodes := [tid] }
          (insertBeforeOp s.parentElement tid (getAtInt cs s.currentNodeIndex) d1)

section Engine

variable (ctors : Nat → PropsData → ComponentVal)

mutual

/-- `internalRender`: the dispatcher.  Fuel exhaustion yields `fuelOut`. -/
def internalRender : Nat → ForgoNode → InsOpts → List Nat → Doc → Res RenderResult
  | 0, _, _, _, d => .err .fuelOut d
  | fuel + 1, node, opts, pending, d =>
    match node with
    | .arr xs => renderArray fuel xs opts pending d
    | .prim v => renderText v opts pending d
    | .elem tag key props => renderDOMElement fuel tag key props opts pending d
    | .comp cid key props => renderCustomComponent fuel cid key props opts pending d
termination_by structural n => n

/-- `renderArray`: illegal in detached mode; otherwise walks the list
against a drifting window. -/
def renderArray : Nat → List ForgoNode → InsOpts → List Nat → Doc → Res RenderResult
  | 0, _, _, _, d => .err .fuelOut d
  | fuel + 1, xs, opts, pending, d =>
    match opts with
    | .detached =>
      .err (.structural "Arrays and fragments cannot be rendered at the top level.") d
    | .search s => arrLoop fuel xs s.parentElement s.currentNodeIndex s.length pending [] d
termination_by structural n => n

/-- The loop of `renderArray`: tracks the number of live nodes that net
disappeared in each step and shifts/shrinks the window accordingly. -/
def arrLoop : Nat → List ForgoNode → Nat → Int → Int → List Nat → List Nat → Doc → Res RenderResult
  | 0, _, _, _, _, _, _, d => .err .fuelOut d
  | _ + 1, [], _, _, _, _, acc, d => .ok { nodes := acc } d
  | fuel + 1, x :: rest, parent, cur, len, pending, acc, d =>
    let totalBefore := (childIdsOf d parent).length
    match internalRender fuel x
        (.search { parentElement := parent, currentNodeIndex := cur, length := len })
        pending d with
    | .err e d1 => .err e d1
    | .ok rr d1 =>
      let totalAfter := (childIdsOf d1 parent).length
      let removed : Int := (totalBefore : Int) + rr.nodes.length - totalAfter
      arrLoop fuel rest parent (cur + rr.nodes.length) (len - removed) pending
        (acc ++ rr.nodes) d1
termination_by structural n => n

/-- `renderDOMElement`. -/
def renderDOMElement : Nat → String → Option JSValue → PropsData → InsOpts → List Nat → Doc → Res RenderResult
  | 0, _, _, _, _, _, d => .err .fuelOut d
  | fuel + 1, tag, key, props, opts, pending, d =>
    match opts with
    | .detached =>
      let p := createNode (.elemNode tag) d
      let d1 := syncStateAndProps (.elem tag key props) p.1 p.1 pending p.2
      match renderDOMElementChildNodes fuel props p.1 d1 with
      | .err e d2 => .err e d2
      | .ok _ d2 => .ok { nodes := [p.1] } d2
    | .search s =>
      let childNodes := childIdsOf d s.parentElement
      if s.length ≠ 0 then
        match findReplacementCandidateForDOMElement d tag key childNodes
            s.currentNodeIndex s.length with
        | .found idx =>
          let d0 := unloadNodes (jsSlice childNodes s.currentNodeIndex (idx : Int)) d
          match getAtInt (childIdsOf d0 s.parentElement) (idx : Int) with
          | none =>
            .err (.typeErr "Cannot read properties of undefined (reading __forgo)") d0
          | some targetId =>
            let d1 := syncStateAndProps (.elem tag key props) targetId targetId pending d0
            match renderDOMElementChildNodes fuel props targetId d1 with
            | .err e d2 => .err e d2
            | .ok _ d2 => .ok { nodes := [targetId] } d2
        | .notFound =>
          addNewDOMElement fuel tag key props s.parentElement
            (getAtInt childNodes s.currentNodeIndex) pending d
      else
        addNewDOMElement fuel tag key props s.parentElement
          (getAtInt childNodes s.currentNodeIndex) pending d
termination_by structural n => n

/-- `addNewDOMElement` (local function of `renderDOMElement`): creates a
fresh element, binds the ref, inserts it before `oldNode`, attaches
state/props, and recurses into the children. -/
def addNewDOMElement : Nat → String → Option JSValue → PropsData → Nat → Option Nat → List Nat → Doc → Res RenderResult
  | 0, _, _, _, _, _, _, d => .err .fuelOut d
  | fuel + 1, tag, key, props, parentId, oldNodeOpt, pending, d =>
    let p := createNode (.elemNode tag) d
    let d1 :=
      match props.refCell with
      | some rid => { p.2 with refsSt := setA p.2.refsSt rid (some p.1) }
      | none => p.2
    let d2 := insertBeforeOp parentId p.1 oldNodeOpt d1
    let d3 := syncStateAndProps (.elem tag key props) p.1 p.1 pending d2
    match renderDOMElementChildNodes fuel props p.1 d3 with
    | .err e d4 => .err e d4
    | .ok _ d4 => .ok { nodes := [p.1] } d4
termination_by structural n => n

/-- `renderDOMElementChildNodes`: walks the flattened child sequence and
then unloads every live child beyond the consumed count. -/
def renderDOMElementChildNodes : Nat → PropsData → Nat → Doc → Res Unit
  | 0, _, _, d => .err .fuelOut d
  | fuel + 1, props, parentId, d =>
    match childLoop fuel (childSequenceOf props) 0 parentId d with
    | .err e d1 => .err e d1
    | .ok consumed d1 =>
      .ok () (unloadNodes ((childIdsOf d1 parentId).drop consumed) d1)
termination_by structural n => n

/-- The loop of `renderDOMElementChildNodes`: each child is rendered into
a window running from the current index to the end of the parent's
current child list; the index advances by the number of produced nodes. -/
def childLoop : Nat → List ForgoNode → Nat → Nat → Doc → Res Nat
  | 0, _, _, _, d => .err .fuelOut d
  | _ + 1, [], idx, _, d => .ok idx d
  | fuel + 1, c :: rest, idx, parentId, d =>
    let len : Int := ((childIdsOf d parentId).length : Int) - (idx : Int)
    match internalRender fuel c
        (.search { parentElement := parentId, currentNodeIndex := (idx : Int), length := len })
        [] d with
    | .err e d1 => .err e d1
    | .ok rr d1 => childLoop fuel rest (idx + rr.nodes.length) parentId d1
termination_by structural n => n

/-- `renderCustomComponent`. -/
def renderCustomComponent : Nat → Nat → Option JSValue → PropsData → InsOpts → List Nat → Doc → Res RenderResult
  | 0, _, _, _, _, _, d => .err .fuelOut d
  | fuel + 1, cid, key, props, opts, pending, d =>
    match opts with
    | .detached => addNewComponent fuel cid key props .detached pending d
    | .search s =>
      if s.length ≠ 0 then
        let childNodes := childIdsOf d s.parentElement
        match findReplacementCandidateForCustomComponent d cid key childNodes
            s.currentNodeIndex s.length with
        | .found idx =>
          let d0 := unloadNodes (jsSlice childNodes s.currentNodeIndex (idx : Int)) d
          match getAtInt (childIdsOf d0 s.parentElement) s.currentNodeIndex with
          | none =>
            .err (.typeErr "Cannot read properties of undefined (reading __forgo)") d0
          | some targetId =>
            match getForgoStateD d0 targetId with
            | none => .err (.structural "Missing state in node.") d0
            | some stRec =>
              match stRec.components.get? pending.length with
              | some sid =>
                match lookupA d0.states sid with
                | some cs =>
                  if cs.ctorId = cid then
                    renderExistingComponent fuel cid props s sid pending d0
                  else addNewComponent fuel cid key props (.search s) pending d0
                | none => addNewComponent fuel cid key props (.search s) pending d0
              | none => addNewComponent fuel cid key props (.search s) pending d0
        | .notFound => addNewComponent fuel cid key props (.search s) pending d
      else addNewComponent fuel cid key props (.search s) pending d
termination_by structural n => n

/-- `renderExistingComponent`: consults `shouldUpdate`; on reuse the
component's `render` is invoked before (and outside) the error boundary;
when `shouldUpdate` returns false the previously materialized span is
returned with no mutation at all. -/
def renderExistingComponent : Nat → Nat → PropsData → SearchOpts → Nat → List Nat → Doc → Res RenderResult
  | 0, _, _, _, _, _, d => .err .fuelOut d
  | fuel + 1, _cid, props, s, sid, pending, d =>
    match lookupA d.states sid with
    | none => .err (.typeErr "Cannot read properties of undefined (reading component)") d
    | some st =>
      let proceed :=
        match st.comp.shouldUpdate with
        | none => true
        | some f => f props st.props
      if proceed then
        let p := allocState { st with props := props } d
        let newSid := p.1
        let statesToAttach := pending ++ [newSid]
        let d1 := logEvent (.renderEv newSid) p.2
        match st.comp.render props { element := argsValOf d1 st.argsId } with
        | .error v => .err (.thrown v) d1
        | .ok newForgoNode =>
          let boundary := if st.comp.errorFn.isSome then some st.comp else none
          let insOpts : SearchOpts :=
            { parentElement := s.parentElement, currentNodeIndex := s.currentNodeIndex,
              length := (st.numNodes : Int) }
          let execRes :=
            renderComponentAndRemoveStaleNodes fuel newForgoNode insOpts statesToAttach
              newSid d1
          withErrorBoundary fuel props st.argsId statesToAttach boundary (.search s) execRes
      else
        let allNodes := childIdsOf d s.parentElement
        let indexOfNode := findIdxOptInt allNodes (argsValOf d st.argsId).node
        .ok { nodes := jsSlice allNodes indexOfNode (indexOfNode + (st.numNodes : Int)) } d
termination_by structural n => n

/-- `addNewComponent`: instantiates the component, validates the render
capability, and runs the first render inside the component's own error
boundary. -/
def addNewComponent : Nat → Nat → Option JSValue → PropsData → InsOpts → List Nat → Doc → Res RenderResult
  | 0, _, _, _, _, _, d => .err .fuelOut d
  | fuel + 1, cid, key, props, opts, pending, d =>
    let componentIndex := pending.length
    let pa := allocArgs { node := none, componentIndex := componentIndex } d
    let argsId := pa.1
    let component := ctors cid props
    if component.hasRender = false then
      .err (.structural "Component constructor must return an object having a render() function.") pa.2
    else
      let boundary := if component.errorFn.isSome then some component else none
      let ps := allocState
        { key := key, ctorId := cid, comp := component, props := props,
          argsId := argsId, numNodes := 0 } pa.2
      let newSid := ps.1
      let statesToAttach := pending ++ [newSid]
      let execRes :=
        let d2 := logEvent (.renderEv newSid) ps.2
        match component.render props { element := argsValOf d2 argsId } with
        | .error v => Res.err (.thrown v) d2
        | .ok newForgoElement =>
          let insOpts : InsOpts :=
            match opts with
            | .detached => .detached
            | .search s =>
              .search { parentElement := s.parentElement,
                        currentNodeIndex := s.currentNodeIndex, length := 0 }
          match internalRender fuel newForgoElement insOpts statesToAttach d2 with
          | .err e d3 => Res.err e d3
          | .ok rr d3 =>
            let d4 := d3.updateState newSid (fun cs => { cs with numNodes := rr.nodes.length })
            let d5 :=
              if rr.nodes.length > 1 then
                d4.updateArgs argsId (fun a => { a with node := rr.nodes.get? 0 })
              else d4
            Res.ok rr d5
      withErrorBoundary fuel props argsId statesToAttach boundary opts execRes
termination_by structural n => n

/-- `withErrorBoundary`: the `try`/`catch` around a component render.
The already-evaluated body outcome is passed in; a caught exception is
handed to the boundary's `error` capability (when there is one) and the
returned description is rendered with the *component's own* insertion
options; otherwise the exception is rethrown.  Fuel exhaustion is not a
JavaScript exception and is always rethrown. -/
def withErrorBoundary : Nat → PropsData → Nat → List Nat → Option ComponentVal → InsOpts → Res RenderResult → Res RenderResult
  | 0, _, _, _, _, _, execRes => .err .fuelOut execRes.doc
  | fuel + 1, props, argsId, statesToAttach, boundary, opts, execRes =>
    match execRes with
    | .ok r d => .ok r d
    | .err .fuelOut d => .err .fuelOut d
    | .err e d =>
      match boundary with
      | some b =>
        match b.errorFn with
        | some f =>
          internalRender fuel (f props { element := argsValOf d argsId } e) opts
            statesToAttach (logEvent (.errorEv e) d)
        | none => .err e d
      | none => .err e d
termination_by structural n => n

/-- `renderComponentAndRemoveStaleNodes`: renders the component's output
against the span the component previously owned and prunes the trailing
nodes that did not survive. -/
def renderComponentAndRemoveStaleNodes : Nat → ForgoNode → SearchOpts → List Nat → Nat → Doc → Res RenderResult
  | 0, _, _, _, _, d => .err .fuelOut d
  | fuel + 1, forgoNode, insOpts, statesToAttach, sid, d =>
    let totalBefore := (childIdsOf d insOpts.parentElement).length
    match internalRender fuel forgoNode (.search insOpts) statesToAttach d with
    | .err e d1 => .err e d1
    | .ok rr d1 =>
      let totalAfter := (childIdsOf d1 insOpts.parentElement).length
      let removed : Int := (totalBefore : Int) + rr.nodes.length - totalAfter
      let newIndex : Int := insOpts.currentNodeIndex + rr.nodes.length
      let stNum : Int :=
        match lookupA d1.states sid with
        | some cs => (cs.numNodes : Int)
        | none => 0
      let nodesToRemove :=
        jsSlice (childIdsOf d1 insOpts.parentElement) newIndex (newIndex + stNum - removed)
      let d2 := unloadNodes nodesToRemove d1
      let d3 := d2.updateState sid (fun cs => { cs with numNodes := rr.nodes.length })
      let d4 :=
        if rr.nodes.length > 1 then
          match lookupA d3.states sid with
          | some cs => d3.updateArgs cs.argsId (fun a => { a with node := rr.nodes.get? 0 })
          | none => d3
        else d3
      .ok rr d4
termination_by structural n => n

end

/-- Outcome of a public entry point. -/
inductive TRes (α : Type) where
  | ok (a : α) (d : Doc)
  | err (e : TopErr) (d : Doc)

/-- `mount(forgoNode, container)`: requires an element container and then
performs the first reconciliation in search mode at child index 0 with a
window of length 0. -/
def mount (fuel : Nat) (forgoNode : ForgoNode) (container : Option Nat)
    (d : Doc) : TRes Unit :=
  match container with
  | none => .err (.eng (.typeErr "Cannot read properties of null (reading nodeType)")) d
  | some cid =>
    match lookupA d.nodes cid with
    | none => .err (.eng (.typeErr "Cannot read properties of null (reading nodeType)")) d
    | some r =>
      if r.kind.nodeType ≠ 1 then
        .err (.config "The container argument to mount() should be an HTML element.") d
      else
        match internalRender ctors fuel forgoNode
            (.search { parentElement := cid, currentNodeIndex := 0, length := 0 }) [] d with
        | .err e d1 => .err (.eng e) d1
        | .ok _ d1 => .ok () d1

/-- Result of the detached `render` entry point. -/
structure DetachedRenderResult where
  node : Option Nat
  nodes : List Nat
deriving DecidableEq, Repr

/-- The detached `render(forgoNode)` entry point. -/
def render (fuel : Nat) (forgoNode : ForgoNode) (d : Doc) : TRes DetachedRenderResult :=
  match internalRender ctors fuel forgoNode .detached [] d with
  | .err e d1 => .err (.eng e) d1
  | .ok rr d1 => .ok { node := rr.nodes.get? 0, nodes := rr.nodes } d1

/-- `rerender(element, props?, fullRerender)`.  The three guard errors at
the top are the configuration errors of the entry point; everything the
nested render raises surfaces as an engine error. -/
def rerender (fuel : Nat) (element : Option ArgsElement) (props : Option PropsData)
    (_fullRerender : Bool) (d : Doc) : TRes RenderResult :=
  match element with
  | none => .err (.config "Missing node information in rerender() argument.") d
  | some el =>
    match el.node with
    | none => .err (.config "Missing node information in rerender() argument.") d
    | some nid =>
      match lookupA d.nodes nid with
      | none => .err (.eng (.typeErr "unknown node")) d
      | some nrec =>
        match nrec.parent with
        | none => .err (.config "Rerender was called on a node without a parent element.") d
        | some pid =>
          match nrec.attached with
          | none => .err (.config "Missing forgo state on node.") d
          | some stRec =>
            match stRec.components.get? el.componentIndex with
            | none => .err (.eng (.typeErr "Cannot read properties of undefined (reading props)")) d
            | some sid =>
              match lookupA d.states sid with
              | none => .err (.eng (.typeErr "Cannot read properties of undefined (reading props)")) d
              | some st =>
                let effectiveProps := props.getD st.props
                let proceed :=
                  match st.comp.shouldUpdate with
                  | none => true
                  | some f => f effectiveProps st.props
                if proceed then
                  let p := allocState { st with props := effectiveProps } d
                  let newSid := p.1
                  let statesToAttach := stRec.components.take el.componentIndex ++ [newSid]
                  let d1 := logEvent (.renderEv newSid) p.2
                  match st.comp.render effectiveProps { element := argsValOf d1 st.argsId } with
                  | .error v => .err (.eng (.thrown v)) d1
                  | .ok forgoNode =>
                    let nodeIndex := findIdxInt (childIdsOf d1 pid) nid
                    match renderComponentAndRemoveStaleNodes ctors fuel forgoNode
                        { parentElement := pid, currentNodeIndex := nodeIndex,
                          length := (st.numNodes : Int) } statesToAttach newSid d1 with
                    | .err e d2 => .err (.eng e) d2
                    | .ok rr d2 => .ok rr d2
                else
                  let allNodes := childIdsOf d pid
                  let indexOfNode := findIdxOptInt allNodes (argsValOf d st.argsId).node
                  .ok { nodes := jsSlice allNodes indexOfNode (indexOfNode + (st.numNodes : Int)) } d

end Engine

/-!  Concrete fixtures used by counterexamples and witnesses. -/

/-- A constructor table with no interesting constructors (claims below
that use it never instantiate a component through the table). -/
def noCtors : Nat → PropsData → ComponentVal :=
  fun _ _ =>
    { hasRender := false, render := fun _ _ => .error .undef, errorFn := none,
      hasMount := false, hasUnmount := false, hasAfterRender := false,
      shouldUpdate := none }

/-- A container element (id 0) holding one existing text child (id 1). -/
def containerWithChild : Doc :=
  { nodes := [(0, { kind := .elemNode "div", attached := none, domProps := [],
                    childIds := [1], parent := none }),
              (1, { kind := .textNode "old", attached := none, domProps := [],
                    childIds := [], parent := some 0 })],
    states := [], argsSt := [], refsSt := [], events := [], fresh := 100 }

/-!  C8 — detached sequences are rejected. -/

/-- C8: dispatching a Sequence (array) description with a detached
insertion context always fails with the StructuralError "Arrays and
fragments cannot be rendered at the top level." and leaves the document
completely untouched (no node is created or attached before the failure);
the same holds through the detached `render` entry point.  Fuel at least
2 lets the dispatcher reach `renderArray`; fuel exhaustion is a modelling
artefact, not a behaviour of the code. -/
theorem c8_detached_sequence_rejection (ctors : Nat → PropsData → ComponentVal)
    (fuel : Nat) (xs : List ForgoNode) (pending : List Nat) (d : Doc) :
    internalRender ctors (fuel + 2) (.arr xs) .detached pending d
        = .err (.structural "Arrays and fragments cannot be rendered at the top level.") d
      ∧ render ctors (fuel + 2) (.arr xs) d
        = .err (.eng (.structural "Arrays and fragments cannot be rendered at the top level.")) d := by
  exact ⟨rfl, rfl⟩

/-!  C4 — the first reconciliation performed by `mount`. -/

/-- C4 counterexample: mounting a text description onto a container that
already has one text child keeps that child: the fresh text node (id 100)
is prepended and the old child (id 1) survives, so the first
reconciliation cannot have been performed against the container's full
child list — a search window covering the full child list (length 1, as
shown by the second conjunct) would have replaced the old text child and
left exactly one child. -/
theorem c4_counterexample :
    (match mount noCtors 50 (.prim (.str "new")) (some 0) containerWithChild with
      | .ok _ d => childIdsOf d 0
      | .err _ _ => []) = [100, 1]
    ∧ (match renderText (.str "new")
          (.search { parentElement := 0, currentNodeIndex := 0,
                     length := ((childIdsOf containerWithChild 0).length : Int) })
          [] containerWithChild with
      | .ok _ d => childIdsOf d 0
      | .err _ _ => []) = [100] := by
  exact ⟨rfl, rfl⟩

/-- C4 (amended): for every `mount(description, container)` with a
resolvable element container, the first reconciliation is performed in
search mode against the container at child index 0 with a search window
of length 0 (the empty window) — not the container's full current child
list. -/
theorem c4_amended_mount_empty_window (ctors : Nat → PropsData → ComponentVal)
    (fuel : Nat) (node : ForgoNode) (cid : Nat) (d : Doc) (r : NodeRec)
    (hr : lookupA d.nodes cid = some r) (he : r.kind.nodeType = 1) :
    mount ctors fuel node (some cid) d
      = match internalRender ctors fuel node
            (.search { parentElement := cid, currentNodeIndex := 0, length := 0 }) [] d with
        | .err e d1 => .err (.eng e) d1
        | .ok _ d1 => .ok () d1 := by
  simp [mount, hr, he]

/-- Witness for the amended C4 theorem at a concrete container. -/
theorem c4_amended_mount_empty_window_witness :
    mount noCtors 50 (.prim (.str "new")) (some 0) containerWithChild
      = match internalRender noCtors 50 (.prim (.str "new"))
            (.search { parentElement := 0, currentNodeIndex := 0, length := 0 }) []
            containerWithChild with
        | .err e d1 => .err (.eng e) d1
        | .ok _ d1 => .ok () d1 :=
  c4_amended_mount_empty_window noCtors 50 (.prim (.str "new")) 0 containerWithChild _ rfl rfl

/-!  C10 / C5 — the candidate matchers. -/

lemma domMatchesAt_falsy (d : Doc) (tag : String) (key : Option JSValue)
    (nodeIds : List Nat) (i : Nat) (h : truthyOpt key = false) :
    domMatchesAt d tag key nodeIds i = domMatchesAt d tag none nodeIds i := by
  have h0 : truthyOpt (none : Option JSValue) = false := rfl
  cases hg : nodeIds.get? i <;> simp [domMatchesAt, hg, h, h0]

lemma compMatchesAt_falsy (d : Doc) (cid : Nat) (key : Option JSValue)
    (nodeIds : List Nat) (i : Nat) (h : truthyOpt key = false) :
    compMatchesAt d cid key nodeIds i = compMatchesAt d cid none nodeIds i := by
  have h0 : truthyOpt (none : Option JSValue) = false := rfl
  cases hg : nodeIds.get? i <;> simp [compMatchesAt, hg, h, h0]

/-- C10: a falsy description key (0, empty string, false, null, undefined)
makes both candidate matchers behave exactly as if the description carried
no key at all: the key is ignored and matching falls back to tag-name
comparison (elements) or first-component-state constructor comparison
(components), so falsy keys never participate in key-based identity
preservation. -/
theorem c10_falsy_keys_are_unkeyed (d : Doc) (tag : String) (cid : Nat)
    (key : Option JSValue) (nodeIds : List Nat) (searchFrom len : Int)
    (h : truthyOpt key = false) :
    findReplacementCandidateForDOMElement d tag key nodeIds searchFrom len
        = findReplacementCandidateForDOMElement d tag none nodeIds searchFrom len
      ∧ findReplacementCandidateForCustomComponent d cid key nodeIds searchFrom len
        = findReplacementCandidateForCustomComponent d cid none nodeIds searchFrom len := by
  have h1 : domMatchesAt d tag key nodeIds = domMatchesAt d tag none nodeIds :=
    funext (fun i => domMatchesAt_falsy d tag key nodeIds i h)
  have h2 : compMatchesAt d cid key nodeIds = compMatchesAt d cid none nodeIds :=
    funext (fun i => compMatchesAt_falsy d cid key nodeIds i h)
  constructor
  · simp [findReplacementCandidateForDOMElement, h1]
  · simp [findReplacementCandidateForCustomComponent, h2]

/-- Witness for C10 with the concrete falsy key 0. -/
theorem c10_falsy_keys_are_unkeyed_witness :
    truthyOpt (some (.num 0)) = false
    ∧ findReplacementCandidateForDOMElement containerWithChild "div" (some (.num 0)) [1] 0 1
        = findReplacementCandidateForDOMElement containerWithChild "div" none [1] 0 1 :=
  ⟨by decide,
    (c10_falsy_keys_are_unkeyed containerWithChild "div" 0 (some (.num 0)) [1] 0 1
      (by decide)).1⟩

lemma scanCandidates_found_iff (test : Nat → Bool) :
    ∀ (k start i : Nat),
      scanCandidates test start k = .found i ↔
        (start ≤ i ∧ i < start + k ∧ test i = true ∧
          ∀ j, start ≤ j → j < i → test j = false) := by
  intro k
  induction k with
  | zero =>
    intro start i
    constructor
    · intro h; simp [scanCandidates] at h
    · rintro ⟨h1, h2, -, -⟩; omega
  | succ k ih =>
    intro start i
    constructor
    · intro h
      simp only [scanCandidates] at h
      by_cases ht : test start = true
      · rw [if_pos ht] at h
        have hi : start = i := by simpa using h
        subst hi
        exact ⟨le_refl _, by omega, ht, fun j hj1 hj2 => absurd hj1 (by omega)⟩
      · rw [if_neg ht] at h
        obtain ⟨h1, h2, h3, h4⟩ := (ih (start + 1) i).mp h
        refine ⟨by omega, by omega, h3, ?_⟩
        intro j hj1 hj2
        rcases Nat.eq_or_lt_of_le hj1 with he | hl
        · rw [← he]; simpa using ht
        · exact h4 j (by omega) hj2
    · rintro ⟨h1, h2, h3, h4⟩
      simp only [scanCandidates]
      by_cases ht : test start = true
      · rw [if_pos ht]
        have hi : i = start := by
          by_contra hne
          have hlt : start < i := by omega
          have hf := h4 start (le_refl _) hlt
          rw [ht] at hf; cases hf
        rw [hi]
      · rw [if_neg ht]
        apply (ih (start + 1) i).mpr
        have hne : i ≠ start := by
          intro he; rw [he] at h3; exact ht h3
        exact ⟨by omega, by omega, h3, fun j hj1 hj2 => h4 j (by omega) hj2⟩

lemma scanCandidates_notFound_iff (test : Nat → Bool) :
    ∀ (k start : Nat),
      scanCandidates test start k = .notFound ↔
        ∀ j, start ≤ j → j < start + k → test j = false := by
  intro k
  induction k with
  | zero =>
    intro start
    simp only [scanCandidates]
    constructor
    · intro _ j h1 h2; omega
    · intro _; trivial
  | succ k ih =>
    intro start
    simp only [scanCandidates]
    by_cases ht : test start = true
    · rw [if_pos ht]
      constructor
      · intro h; simp at h
      · intro h
        have := h start (le_refl _) (by omega)
        rw [ht] at this; cases this
    · rw [if_neg ht, ih (start + 1)]
      constructor
      · intro h j hj1 hj2
        rcases Nat.eq_or_lt_of_le hj1 with he | hl
        · rw [← he]; simpa using ht
        · exact h j (by omega) (by omega)
      · intro h j hj1 hj2; exact h j (by omega) (by omega)

/-- C5 (amended): for every description and sibling window
`[searchFrom, searchFrom + len)`, both matchers return the smallest
window index whose node passes the per-position test, and notFound
exactly when no window index passes it.  The per-position test is
`domMatchesAt` / `compMatchesAt`: a *truthy* matchKey is compared against
the node's attached-state key (elements) resp. the key of the first
component state on the node (components); without a truthy key, an
element matches when its *lowercased* tag name equals the description's
type exactly, and a component matches when the first component state's
constructor reference equals the description's constructor. -/
theorem c5_amended_first_fit_matching (d : Doc) (tag : String) (cid : Nat)
    (key : Option JSValue) (nodeIds : List Nat) (searchFrom len : Nat) :
    (∀ i, findReplacementCandidateForDOMElement d tag key nodeIds searchFrom len = .found i ↔
       (searchFrom ≤ i ∧ i < searchFrom + len ∧ domMatchesAt d tag key nodeIds i = true ∧
         ∀ j, searchFrom ≤ j → j < i → domMatchesAt d tag key nodeIds j = false))
    ∧ (findReplacementCandidateForDOMElement d tag key nodeIds searchFrom len = .notFound ↔
       ∀ j, searchFrom ≤ j → j < searchFrom + len → domMatchesAt d tag key nodeIds j = false)
    ∧ (∀ i, findReplacementCandidateForCustomComponent d cid key nodeIds searchFrom len = .found i ↔
       (searchFrom ≤ i ∧ i < searchFrom + len ∧ compMatchesAt d cid key nodeIds i = true ∧
         ∀ j, searchFrom ≤ j → j < i → compMatchesAt d cid key nodeIds j = false))
    ∧ (findReplacementCandidateForCustomComponent d cid key nodeIds searchFrom len = .notFound ↔
       ∀ j, searchFrom ≤ j → j < searchFrom + len → compMatchesAt d cid key nodeIds j = false) := by
  have hnn : ¬ ((searchFrom : Int) < 0) := by omega
  have hf : ((searchFrom : Int)).toNat = searchFrom := Int.toNat_natCast searchFrom
  have hl : ((len : Int)).toNat = len := Int.toNat_natCast len
  refine ⟨?_, ?_, ?_, ?_⟩
  · intro i
    rw [findReplacementCandidateForDOMElement, if_neg hnn, hf, hl]
    exact scanCandidates_found_iff _ len searchFrom i
  · rw [findReplacementCandidateForDOMElement, if_neg hnn, hf, hl]
    exact scanCandidates_notFound_iff _ len searchFrom
  · intro i
    rw [findReplacementCandidateForCustomComponent, if_neg hnn, hf, hl]
    exact scanCandidates_found_iff _ len searchFrom i
  · rw [findReplacementCandidateForCustomComponent, if_neg hnn, hf, hl]
    exact scanCandidates_notFound_iff _ len searchFrom

/-- Witness for the amended C5 theorem: on `containerWithChild` the text
child does not match an unkeyed "div" description, so the matcher reports
notFound over the window `[0, 1)`. -/
theorem c5_amended_first_fit_matching_witness :
    findReplacementCandidateForDOMElement containerWithChild "div" none [1] 0 1 = .notFound :=
  (c5_amended_first_fit_matching containerWithChild "div" 0 none [1] 0 1).2.1.mpr
    (by decide)

/-- An element node (id 1) whose attached state carries the key 0. -/
def keyedZeroDoc : Doc :=
  { nodes := [(1, { kind := .elemNode "div",
                    attached := some { key := some (.num 0), props := none, components := [] },
                    domProps := [], childIds := [], parent := none })],
    states := [], argsSt := [], refsSt := [], events := [], fresh := 50 }

/-- An element node (id 1) created with the uppercase tag "DIV". -/
def upperTagDoc : Doc :=
  { nodes := [(1, { kind := .elemNode "DIV", attached := none, domProps := [],
                    childIds := [], parent := none })],
    states := [], argsSt := [], refsSt := [], events := [], fresh := 50 }

/-- C5 counterexample.  First half: a description carrying the matchKey 0
scans a window whose node's attached-state key is exactly 0, yet the
matcher reports notFound (the falsy key is ignored and the tag fallback
compares "span" against "div") — under the claim the keys are equal so
index 0 should have matched.  Second half: a description of type "DIV"
scans a window whose node's tag name is "DIV" — equal even without
ignoring case — yet the matcher reports notFound, because the comparison
is `tagName.toLowerCase() === type`, not a case-insensitive equality. -/
theorem c5_counterexample :
    (getForgoStateD keyedZeroDoc 1).map NodeAttached.key = some (some (.num 0))
    ∧ findReplacementCandidateForDOMElement keyedZeroDoc "span" (some (.num 0)) [1] 0 1
        = .notFound
    ∧ (lookupA upperTagDoc.nodes 1).map NodeRec.kind = some (.elemNode "DIV")
    ∧ findReplacementCandidateForDOMElement upperTagDoc "DIV" none [1] 0 1 = .notFound := by
  refine ⟨rfl, by decide, rfl, by decide⟩

/-!  C2 — the `shouldUpdate` short circuit. -/

/-- `array.slice(a, a+m)` is drop-then-take when the range is inside the
array. -/
lemma jsSlice_nonneg {α : Type} (l : List α) (a m : Nat) (h : a + m ≤ l.length) :
    jsSlice l (a : Int) ((a : Int) + (m : Int)) = (l.drop a).take m := by
  have h1 : ¬ ((a : Int) < 0) := by omega
  have h2 : ¬ (((a : Int) + (m : Int)) < 0) := by omega
  have h3 : ((a : Int)).toNat = a := Int.toNat_natCast a
  have h4 : ((a : Int) + (m : Int)).toNat = a + m := by omega
  have h5 : min a l.length = a := by omega
  have h6 : min (a + m) l.length = a + m := by omega
  have h7 : a + m - a = m := by omega
  simp only [jsSlice, jsIdx]
  rw [if_neg h1, if_neg h2, h3, h4, h5, h6, h7]

/-- C2: on a re-render of an existing component whose
`shouldUpdate(newProps, oldProps)` returns false, the engine skips
`render()` entirely and returns the previously materialized span of live
nodes unchanged, leaving the document (stored props, attached states,
DOM, event log — hence every render/mount/unmount/afterRender
observation) exactly as it was.  The first conjunct covers reconciliation
reuse (`renderExistingComponent`), the second the `rerender` entry point;
the third identifies the returned slice as the numNodes-node span
starting at the component's node whenever that node is among the parent's
children with numNodes nodes available from it. -/
theorem c2_shouldUpdate_short_circuit (ctors : Nat → PropsData → ComponentVal)
    (fuel : Nat) :
    (∀ (cid : Nat) (newProps : PropsData) (s : SearchOpts) (sid : Nat)
        (pending : List Nat) (d : Doc) (st : CompState)
        (f : PropsData → PropsData → Bool),
      lookupA d.states sid = some st →
      st.comp.shouldUpdate = some f →
      f newProps st.props = false →
      renderExistingComponent ctors (fuel + 1) cid newProps s sid pending d
        = .ok ⟨jsSlice (childIdsOf d s.parentElement)
              (findIdxOptInt (childIdsOf d s.parentElement) (argsValOf d st.argsId).node)
              (findIdxOptInt (childIdsOf d s.parentElement) (argsValOf d st.argsId).node
                + (st.numNodes : Int))⟩ d)
    ∧ (∀ (el : ArgsElement) (props : Option PropsData) (full : Bool) (d : Doc)
        (nid pid sid : Nat) (nrec : NodeRec) (att : NodeAttached) (st : CompState)
        (f : PropsData → PropsData → Bool),
      el.node = some nid →
      lookupA d.nodes nid = some nrec →
      nrec.parent = some pid →
      nrec.attached = some att →
      att.components[el.componentIndex]? = some sid →
      lookupA d.states sid = some st →
      st.comp.shouldUpdate = some f →
      f (props.getD st.props) st.props = false →
      rerender ctors fuel (some el) props full d
        = .ok ⟨jsSlice (childIdsOf d pid)
              (findIdxOptInt (childIdsOf d pid) (argsValOf d st.argsId).node)
              (findIdxOptInt (childIdsOf d pid) (argsValOf d st.argsId).node
                + (st.numNodes : Int))⟩ d)
    ∧ (∀ (l : List Nat) (nid k m : Nat),
      List.findIdx? (fun x => x = nid) l = some k →
      k + m ≤ l.length →
      jsSlice l (findIdxOptInt l (some nid)) (findIdxOptInt l (some nid) + (m : Int))
        = (l.drop k).take m) := by
  refine ⟨?_, ?_, ?_⟩
  · intro cid newProps s sid pending d st f hst hsu hf
    simp [renderExistingComponent, hst, hsu, hf]
  · intro el props full d nid pid sid nrec att st f hn hr hp ha hc hst hsu hf
    rw [rerender, hn]
    simp [hr, hp, ha, hc, hst, hsu, hf]
  · intro l nid k m hk hm
    have : findIdxOptInt l (some nid) = (k : Int) := by
      simp [findIdxOptInt, findIdxInt, hk]
    rw [this]
    exact jsSlice_nonneg l k m hm

/-- A document with one component state (shouldUpdate constantly false)
attached to the text node (id 1) inside the container (id 0). -/
def skipUpdateDoc : Doc :=
  { nodes := [(0, { kind := .elemNode "div", attached := none, domProps := [],
                    childIds := [1], parent := none }),
              (1, { kind := .textNode "t",
                    attached := some { key := none, props := none, components := [10] },
                    domProps := [], childIds := [], parent := some 0 })],
    states := [(10, { key := none, ctorId := 7,
                      comp := { hasRender := true,
                                render := fun _ _ => .ok (.prim (.str "t")),
                                errorFn := none, hasMount := false,
                                hasUnmount := false, hasAfterRender := false,
                                shouldUpdate := some (fun _ _ => false) },
                      props := .mk none none [], argsId := 20, numNodes := 1 })],
    argsSt := [(20, { node := some 1, componentIndex := 0 })],
    refsSt := [], events := [], fresh := 100 }

/-- Witness for C2 on `skipUpdateDoc`. -/
theorem c2_shouldUpdate_short_circuit_witness :
    rerender noCtors 40 (some { node := some 1, componentIndex := 0 }) none true
        skipUpdateDoc
      = .ok { nodes := [1] } skipUpdateDoc :=
  by
    have h := (c2_shouldUpdate_short_circuit noCtors 40).2.1
      { node := some 1, componentIndex := 0 } none true skipUpdateDoc
      1 0 10 _ _ _ _ rfl rfl rfl rfl rfl rfl rfl rfl
    simpa using h

/-!  C9 — the `rerender` configuration errors. -/

/-- C9: `rerender` fails with the ConfigurationError "Missing node
information in rerender() argument." exactly when the handle is missing
or carries no node, with "Rerender was called on a node without a parent
element." when the node has no parent, and with "Missing forgo state on
node." when the node carries no attached state; and whenever none of
those three conditions holds the call never produces a configuration
error (every escaping failure of the actual re-render is an engine
error). -/
theorem c9_rerender_configuration_errors (ctors : Nat → PropsData → ComponentVal)
    (fuel : Nat) (props : Option PropsData) (full : Bool) (d : Doc) :
    (rerender ctors fuel none props full d
        = .err (.config "Missing node information in rerender() argument.") d)
    ∧ (∀ el : ArgsElement, el.node = none →
        rerender ctors fuel (some el) props full d
          = .err (.config "Missing node information in rerender() argument.") d)
    ∧ (∀ (el : ArgsElement) (nid : Nat) (nrec : NodeRec),
        el.node = some nid → lookupA d.nodes nid = some nrec → nrec.parent = none →
        rerender ctors fuel (some el) props full d
          = .err (.config "Rerender was called on a node without a parent element.") d)
    ∧ (∀ (el : ArgsElement) (nid pid : Nat) (nrec : NodeRec),
        el.node = some nid → lookupA d.nodes nid = some nrec →
        nrec.parent = some pid → nrec.attached = none →
        rerender ctors fuel (some el) props full d
          = .err (.config "Missing forgo state on node.") d)
    ∧ (∀ (el : ArgsElement) (nid pid : Nat) (nrec : NodeRec) (att : NodeAttached),
        el.node = some nid → lookupA d.nodes nid = some nrec →
        nrec.parent = some pid → nrec.attached = some att →
        ∀ (e : TopErr) (d2 : Doc),
          rerender ctors fuel (some el) props full d = .err e d2 →
          ∀ m, e ≠ .config m) := by
  refine ⟨rfl, ?_, ?_, ?_, ?_⟩
  · intro el hn
    rw [rerender, hn]
  · intro el nid nrec hn hr hp
    rw [rerender, hn]
    simp [hr, hp]
  · intro el nid pid nrec hn hr hp ha
    rw [rerender, hn]
    simp [hr, hp, ha]
  · intro el nid pid nrec att hn hr hp ha e d2 hres m
    rw [rerender, hn] at hres
    simp only [hr, hp, ha] at hres
    repeat' split at hres
    all_goals cases hres <;> simp

/-- Witness for C9: rerender on a parentless node (the container itself)
raises the parentless configuration error. -/
theorem c9_rerender_configuration_errors_witness :
    rerender noCtors 5 (some { node := some 0, componentIndex := 0 }) none true
        containerWithChild
      = .err (.config "Rerender was called on a node without a parent element.")
          containerWithChild :=
  (c9_rerender_configuration_errors noCtors 5 none true containerWithChild).2.2.1
    { node := some 0, componentIndex := 0 } 0 _ rfl rfl rfl

/-!  C1 — the lifecycle coordination performed by `syncStateAndProps`. -/

lemma updateNode_states (d : Doc) (k : Nat) (f : NodeRec → NodeRec) :
    (d.updateNode k f).states = d.states := by
  unfold Doc.updateNode; cases lookupA d.nodes k <;> rfl

lemma updateNode_events (d : Doc) (k : Nat) (f : NodeRec → NodeRec) :
    (d.updateNode k f).events = d.events := by
  unfold Doc.updateNode; cases lookupA d.nodes k <;> rfl

lemma updateArgs_states (d : Doc) (k : Nat) (f : ArgsElement → ArgsElement) :
    (d.updateArgs k f).states = d.states := by
  unfold Doc.updateArgs; cases lookupA d.argsSt k <;> rfl

lemma updateArgs_events (d : Doc) (k : Nat) (f : ArgsElement → ArgsElement) :
    (d.updateArgs k f).events = d.events := by
  unfold Doc.updateArgs; cases lookupA d.argsSt k <;> rfl

lemma setDomProp_states (d : Doc) (nid : Nat) (k : String) (v : JSValue) :
    (setDomProp d nid k v).states = d.states := by
  unfold setDomProp; exact updateNode_states d nid _

lemma setDomProp_events (d : Doc) (nid : Nat) (k : String) (v : JSValue) :
    (setDomProp d nid k v).events = d.events := by
  unfold setDomProp; exact updateNode_events d nid _

/-- Folding steps that preserve an observation preserve it overall. -/
lemma foldl_preserve {β γ : Type} (g : Doc → γ) (step : Doc → β → Doc)
    (hs : ∀ d b, g (step d b) = g d) :
    ∀ (l : List β) (d : Doc), g (l.foldl step d) = g d := by
  intro l
  induction l with
  | nil => intro d; rfl
  | cons x rest ih => intro d; rw [List.foldl_cons, ih, hs]

lemma applyPropsDiff_states (f : ForgoNode) (nid : Nat) (d : Doc) :
    (applyPropsDiff f nid d).states = d.states := by
  unfold applyPropsDiff
  cases forgoNodeProps f with
  | none => rfl
  | some newProps =>
    simp only
    rw [foldl_preserve (fun x : Doc => x.states)
      (fun (acc : Doc) (kv : String × JSValue) => setDomProp acc nid kv.1 kv.2)
      (fun x kv => setDomProp_states x nid kv.1 kv.2)]
    split
    · split
      · refine foldl_preserve (fun x : Doc => x.states) _ (fun x kv => ?_) _ d
        by_cases hb : (match applyPropsDiff.lookupAttr newProps.attrs kv.1 with
          | some v2 => v2
          | none => JSValue.undef) = kv.2 <;>
          simp [hb, setDomProp_states]
      · rfl
    · rfl

lemma applyPropsDiff_events (f : ForgoNode) (nid : Nat) (d : Doc) :
    (applyPropsDiff f nid d).events = d.events := by
  unfold applyPropsDiff
  cases forgoNodeProps f with
  | none => rfl
  | some newProps =>
    simp only
    rw [foldl_preserve (fun x : Doc => x.events)
      (fun (acc : Doc) (kv : String × JSValue) => setDomProp acc nid kv.1 kv.2)
      (fun x kv => setDomProp_events x nid kv.1 kv.2)]
    split
    · split
      · refine foldl_preserve (fun x : Doc => x.events) _ (fun x kv => ?_) _ d
        by_cases hb : (match applyPropsDiff.lookupAttr newProps.attrs kv.1 with
          | some v2 => v2
          | none => JSValue.undef) = kv.2 <;>
          simp [hb, setDomProp_events]
      · rfl
    · rfl

lemma setForgoStateD_states (d : Doc) (n : Nat) (st : NodeAttached) :
    (setForgoStateD d n st).states = d.states := updateNode_states d n _

lemma setForgoStateD_events (d : Doc) (n : Nat) (st : NodeAttached) :
    (setForgoStateD d n st).events = d.events := updateNode_events d n _

lemma attachPropsNode_states (f : ForgoNode) (nid : Nat) (p : List Nat) (d : Doc) :
    (attachPropsNode f nid p d).states = d.states := by
  unfold attachPropsNode
  by_cases hb : isForgoElementB f = true <;>
    simp [hb, setForgoStateD_states, applyPropsDiff_states]

lemma attachPropsNode_events (f : ForgoNode) (nid : Nat) (p : List Nat) (d : Doc) :
    (attachPropsNode f nid p d).events = d.events := by
  unfold attachPropsNode
  by_cases hb : isForgoElementB f = true <;>
    simp [hb, setForgoStateD_events, applyPropsDiff_events]

lemma setArgsNodes_states (p : List Nat) (nid : Nat) :
    ∀ d : Doc, (setArgsNodes p nid d).states = d.states := by
  induction p with
  | nil => intro d; rfl
  | cons sid rest ih =>
    intro d
    unfold setArgsNodes
    cases lookupA d.states sid with
    | none => exact ih d
    | some st => rw [ih, updateArgs_states]

lemma setArgsNodes_events (p : List Nat) (nid : Nat) :
    ∀ d : Doc, (setArgsNodes p nid d).events = d.events := by
  induction p with
  | nil => intro d; rfl
  | cons sid rest ih =>
    intro d
    unfold setArgsNodes
    cases lookupA d.states sid with
    | none => exact ih d
    | some st => rw [ih, updateArgs_events]

lemma attachProps_states (f : ForgoNode) (nid : Nat) (p : List Nat) (d : Doc) :
    (attachProps f nid p d).states = d.states := by
  unfold attachProps
  simp only
  rw [attachPropsNode_states, setArgsNodes_states]

lemma attachProps_events (f : ForgoNode) (nid : Nat) (p : List Nat) (d : Doc) :
    (attachProps f nid p d).events = d.events ++ afterRenderEvts d p := by
  unfold attachProps
  simp only
  rw [attachPropsNode_events, setArgsNodes_events]

lemma unmountComponents_states (d : Doc) (ids : List Nat) (i : Nat) :
    (unmountComponents d ids i).states = d.states := rfl

/-- The stopping behaviour of the divergence-index computation: every
position strictly below the result carries constructor-equal old/new
states, and the result itself is either stack's end or a constructor
mismatch. -/
lemma findIncompatAux_spec (states : List (Nat × CompState)) (oldIds : List Nat) :
    ∀ (news : List Nat) (i : Nat),
      i ≤ findIncompatAux states oldIds news i
      ∧ (∀ j, i ≤ j → j < findIncompatAux states oldIds news i →
          ∃ a b, oldIds.get? j = some a ∧ news.get? (j - i) = some b ∧
            stateCtorId states a = stateCtorId states b)
      ∧ (news.get? (findIncompatAux states oldIds news i - i) = none
         ∨ oldIds.get? (findIncompatAux states oldIds news i) = none
         ∨ ∃ a b, oldIds.get? (findIncompatAux states oldIds news i) = some a
             ∧ news.get? (findIncompatAux states oldIds news i - i) = some b
             ∧ stateCtorId states a ≠ stateCtorId states b) := by
  intro news
  induction news with
  | nil =>
    intro i
    refine ⟨le_refl _, ?_, ?_⟩
    · intro j h1 h2
      simp [findIncompatAux] at h2
      omega
    · left
      simp [findIncompatAux]
  | cons newId rest ih =>
    intro i
    have hstep : findIncompatAux states oldIds (newId :: rest) i
        = (match oldIds.get? i with
          | none => i
          | some oldId =>
            if stateCtorId states oldId ≠ stateCtorId states newId then i
            else findIncompatAux states oldIds rest (i + 1)) := rfl
    cases ho : oldIds.get? i with
    | none =>
      simp only [hstep, ho]
      refine ⟨le_refl _, ?_, ?_⟩
      · intro j h1 h2; omega
      · right; left; trivial
    | some oldId =>
      by_cases hc : stateCtorId states oldId ≠ stateCtorId states newId
      · simp only [hstep, ho, if_pos hc]
        refine ⟨le_refl _, ?_, ?_⟩
        · intro j h1 h2; omega
        · right; right
          exact ⟨oldId, newId, rfl, by simp, hc⟩
      · simp only [hstep, ho, if_neg hc]
        obtain ⟨ih1, ih2, ih3⟩ := ih (i + 1)
        refine ⟨by omega, ?_, ?_⟩
        · intro j h1 h2
          rcases Nat.eq_or_lt_of_le h1 with he | hl
          · refine ⟨oldId, newId, ?_, ?_, ?_⟩
            · rw [← he]; exact ho
            · rw [← he]; simp
            · simpa using hc
          · obtain ⟨a, b, hb1, hb2, hb3⟩ := ih2 j (by omega) h2
            refine ⟨a, b, hb1, ?_, hb3⟩
            have hj : j - i = (j - (i + 1)) + 1 := by omega
            rw [hj]
            simpa using hb2
        · have hr : findIncompatAux states oldIds rest (i + 1) - i
              = (findIncompatAux states oldIds rest (i + 1) - (i + 1)) + 1 := by omega
          rcases ih3 with h | h | ⟨a, b, hb1, hb2, hb3⟩
          · left; rw [hr]; simpa using h
          · right; left; exact h
          · right; right
            refine ⟨a, b, hb1, ?_, hb3⟩
            rw [hr]
            simpa using hb2

lemma afterRenderEvts_shape (d : Doc) (p : List Nat) :
    ∀ ev ∈ afterRenderEvts d p, ∃ sid pn, ev = .afterRenderEv sid pn := by
  intro ev hv
  simp only [afterRenderEvts, List.mem_filterMap] at hv
  obtain ⟨sid, -, hf⟩ := hv
  repeat' split at hf
  all_goals cases hf
  all_goals exact ⟨sid, _, rfl⟩

lemma unmountEventsOf_shape (states : List (Nat × CompState)) (ids : List Nat) (i : Nat) :
    ∀ ev ∈ unmountEventsOf states ids i,
      ∃ sid, ev = .unmountEv sid ∧ sid ∈ ids.drop i := by
  intro ev hv
  simp only [unmountEventsOf, List.mem_filterMap] at hv
  obtain ⟨sid, hm, hf⟩ := hv
  repeat' split at hf
  all_goals cases hf
  all_goals exact ⟨sid, rfl, hm⟩

lemma mountEventsOf_shape (states : List (Nat × CompState)) (ids : List Nat) (i : Nat) :
    ∀ ev ∈ mountEventsOf states ids i,
      ∃ sid, ev = .mountEv sid ∧ sid ∈ ids.drop i := by
  intro ev hv
  simp only [mountEventsOf, List.mem_filterMap] at hv
  obtain ⟨sid, hm, hf⟩ := hv
  repeat' split at hf
  all_goals cases hf
  all_goals exact ⟨sid, rfl, hm⟩

lemma unmountEventsOf_complete (states : List (Nat × CompState)) (ids : List Nat)
    (i : Nat) (sid : Nat) (st : CompState) (hm : sid ∈ ids.drop i)
    (hl : lookupA states sid = some st) (hu : st.comp.hasUnmount = true) :
    Event.unmountEv sid ∈ unmountEventsOf states ids i := by
  simp only [unmountEventsOf, List.mem_filterMap]
  exact ⟨sid, hm, by simp [hl, hu]⟩

lemma mountEventsOf_complete (states : List (Nat × CompState)) (ids : List Nat)
    (i : Nat) (sid : Nat) (st : CompState) (hm : sid ∈ ids.drop i)
    (hl : lookupA states sid = some st) (hu : st.comp.hasMount = true) :
    Event.mountEv sid ∈ mountEventsOf states ids i := by
  simp only [mountEventsOf, List.mem_filterMap]
  exact ⟨sid, hm, by simp [hl, hu]⟩

/-- C1: whenever `syncStateAndProps` replaces a live node's attached
component-state stack (the target node carries an old stack `oldIds`),
the divergence index is computed as the longest common prefix on which
the old and new states' constructor references agree (stopping at the
first mismatch or at either stack's end), and the event log grows by
exactly the `afterRender` block of `attachProps` followed by the unmount
events of every old state from the divergence index on (in ascending
stack order, for the states exposing `unmount`) followed by the mount
events of every new state from the divergence index on (in ascending
stack order, for the states exposing `mount`): all unmounts fire before
any mount. -/
theorem c1_stack_replacement_lifecycle (d : Doc) (f : ForgoNode)
    (newId targetId : Nat) (pendingIds oldIds : List Nat)
    (hOld : (getForgoStateD d targetId).map NodeAttached.components = some oldIds) :
    (syncStateAndProps f newId targetId pendingIds d).events
        = d.events ++ afterRenderEvts d pendingIds
            ++ unmountEventsOf d.states oldIds
                (findIndexOfFirstIncompatibleState d.states pendingIds oldIds)
            ++ mountEventsOf d.states pendingIds
                (findIndexOfFirstIncompatibleState d.states pendingIds oldIds)
    ∧ (∀ j, j < findIndexOfFirstIncompatibleState d.states pendingIds oldIds →
        ∃ a b, oldIds.get? j = some a ∧ pendingIds.get? j = some b ∧
          stateCtorId d.states a = stateCtorId d.states b)
    ∧ (pendingIds.get? (findIndexOfFirstIncompatibleState d.states pendingIds oldIds) = none
       ∨ oldIds.get? (findIndexOfFirstIncompatibleState d.states pendingIds oldIds) = none
       ∨ ∃ a b,
           oldIds.get? (findIndexOfFirstIncompatibleState d.states pendingIds oldIds) = some a
           ∧ pendingIds.get? (findIndexOfFirstIncompatibleState d.states pendingIds oldIds) = some b
           ∧ stateCtorId d.states a ≠ stateCtorId d.states b)
    ∧ (∀ ev ∈ afterRenderEvts d pendingIds, ∃ sid pn, ev = .afterRenderEv sid pn)
    ∧ (∀ ev ∈ unmountEventsOf d.states oldIds
          (findIndexOfFirstIncompatibleState d.states pendingIds oldIds),
        ∃ sid, ev = .unmountEv sid
          ∧ sid ∈ oldIds.drop (findIndexOfFirstIncompatibleState d.states pendingIds oldIds))
    ∧ (∀ ev ∈ mountEventsOf d.states pendingIds
          (findIndexOfFirstIncompatibleState d.states pendingIds oldIds),
        ∃ sid, ev = .mountEv sid
          ∧ sid ∈ pendingIds.drop (findIndexOfFirstIncompatibleState d.states pendingIds oldIds))
    ∧ (∀ sid st,
        sid ∈ oldIds.drop (findIndexOfFirstIncompatibleState d.states pendingIds oldIds) →
        lookupA d.states sid = some st → st.comp.hasUnmount = true →
        Event.unmountEv sid ∈ unmountEventsOf d.states oldIds
          (findIndexOfFirstIncompatibleState d.states pendingIds oldIds))
    ∧ (∀ sid st,
        sid ∈ pendingIds.drop (findIndexOfFirstIncompatibleState d.states pendingIds oldIds) →
        lookupA d.states sid = some st → st.comp.hasMount = true →
        Event.mountEv sid ∈ mountEventsOf d.states pendingIds
          (findIndexOfFirstIncompatibleState d.states pendingIds oldIds)) := by
  refine ⟨?_, ?_, ?_, afterRenderEvts_shape d pendingIds, unmountEventsOf_shape _ _ _,
    mountEventsOf_shape _ _ _,
    fun sid st hm hl hu => unmountEventsOf_complete _ _ _ sid st hm hl hu,
    fun sid st hm hl hu => mountEventsOf_complete _ _ _ sid st hm hl hu⟩
  · unfold syncStateAndProps
    rw [hOld]
    simp only [mountComponents, unmountComponents, unmountComponents_states,
      attachProps_states, attachProps_events, List.append_assoc]
  · intro j hj
    rw [findIndexOfFirstIncompatibleState] at hj
    have hs := (findIncompatAux_spec d.states oldIds pendingIds 0).2.1 j (Nat.zero_le j) hj
    simpa using hs
  · have hs := (findIncompatAux_spec d.states oldIds pendingIds 0).2.2
    rw [findIndexOfFirstIncompatibleState]
    simpa using hs

/-- A component that only exposes `unmount`. -/
def unmountOnlyComp : ComponentVal :=
  { hasRender := true, render := fun _ _ => .ok (.prim .null), errorFn := none,
    hasMount := false, hasUnmount := true, hasAfterRender := false,
    shouldUpdate := none }

/-- A component that only exposes `mount`. -/
def mountOnlyComp : ComponentVal :=
  { hasRender := true, render := fun _ _ => .ok (.prim .null), errorFn := none,
    hasMount := true, hasUnmount := false, hasAfterRender := false,
    shouldUpdate := none }

/-- A text node (id 1) carrying the old component stack [10] (ctor 7,
unmount only); the pending replacement stack is [11] (ctor 8, mount
only); node 2 is the fresh node receiving the new stack. -/
def syncFixDoc : Doc :=
  { nodes := [(1, { kind := .textNode "t",
                    attached := some { key := none, props := none, components := [10] },
                    domProps := [], childIds := [], parent := none }),
              (2, { kind := .textNode "u", attached := none, domProps := [],
                    childIds := [], parent := none })],
    states := [(10, { key := none, ctorId := 7, comp := unmountOnlyComp,
                      props := .mk none none [], argsId := 20, numNodes := 1 }),
               (11, { key := none, ctorId := 8, comp := mountOnlyComp,
                      props := .mk none none [], argsId := 21, numNodes := 1 })],
    argsSt := [(20, { node := some 1, componentIndex := 0 }),
               (21, { node := none, componentIndex := 0 })],
    refsSt := [], events := [], fresh := 100 }

/-- Witness for C1 on `syncFixDoc`: replacing the stack [10] by [11]
(different constructors, divergence index 0) fires exactly the unmount of
state 10 and then the mount of state 11. -/
theorem c1_stack_replacement_lifecycle_witness :
    (syncStateAndProps (.prim (.str "x")) 2 1 [11] syncFixDoc).events
        = syncFixDoc.events ++ afterRenderEvts syncFixDoc [11]
            ++ unmountEventsOf syncFixDoc.states [10]
                (findIndexOfFirstIncompatibleState syncFixDoc.states [11] [10])
            ++ mountEventsOf syncFixDoc.states [11]
                (findIndexOfFirstIncompatibleState syncFixDoc.states [11] [10])
    ∧ (syncStateAndProps (.prim (.str "x")) 2 1 [11] syncFixDoc).events
        = [.unmountEv 10, .mountEv 11] :=
  ⟨(c1_stack_replacement_lifecycle syncFixDoc (.prim (.str "x")) 2 1 [11] [10] rfl).1,
    by decide⟩

/-!  C6 — the Primitive Renderer.  Infrastructure: how the document tree
is observed through association-list updates. -/

lemma lookupA_setA_eq {α : Type} : ∀ (l : List (Nat × α)) (k : Nat) (v : α),
    lookupA (setA l k v) k = some v := by
  intro l k v
  induction l with
  | nil => simp [setA, lookupA]
  | cons kv rest ih =>
    by_cases h : kv.1 = k
    · simp [setA, h, lookupA]
    · simp only [setA]
      rw [if_neg (by exact h)]
      simp only [lookupA]
      rw [if_neg (by exact h)]
      exact ih

lemma lookupA_setA_ne {α : Type} : ∀ (l : List (Nat × α)) (k q : Nat) (v : α),
    q ≠ k → lookupA (setA l k v) q = lookupA l q := by
  intro l k q v hq
  induction l with
  | nil =>
    simp only [setA, lookupA]
    rw [if_neg (fun h => hq h.symm)]
  | cons kv rest ih =>
    by_cases h : kv.1 = k
    · simp only [setA]
      rw [if_pos (by exact h)]
      simp only [lookupA]
      rw [if_neg (fun hh => hq hh.symm), if_neg (by rw [h]; exact fun hh => hq hh.symm)]
    · simp only [setA]
      rw [if_neg (by exact h)]
      simp only [lookupA]
      by_cases h2 : kv.1 = q
      · rw [if_pos (by exact h2), if_pos (by exact h2)]
      · rw [if_neg (by exact h2), if_neg (by exact h2)]
        exact ih

/-- How a node lookup reads through `updateNode`. -/
lemma lookupA_updateNode (d : Doc) (k : Nat) (f : NodeRec → NodeRec) (q : Nat) :
    lookupA (d.updateNode k f).nodes q
      = if q = k then (lookupA d.nodes k).map f else lookupA d.nodes q := by
  unfold Doc.updateNode
  cases hk : lookupA d.nodes k with
  | none =>
    by_cases hq : q = k
    · simp [hq, hk]
    · simp [hq]
  | some r =>
    by_cases hq : q = k
    · simp [hq, hk, lookupA_setA_eq]
    · simp [hq, lookupA_setA_ne d.nodes k q (f r) hq]

/-- Two documents whose node stores agree on kind, parent and child list
of every node (the attached state, props and the other stores may
differ). -/
def sameTree (d1 d2 : Doc) : Prop :=
  ∀ q, (lookupA d1.nodes q).map NodeRec.kind = (lookupA d2.nodes q).map NodeRec.kind
    ∧ (lookupA d1.nodes q).map NodeRec.parent = (lookupA d2.nodes q).map NodeRec.parent
    ∧ (lookupA d1.nodes q).map NodeRec.childIds = (lookupA d2.nodes q).map NodeRec.childIds

lemma sameTree_refl (d : Doc) : sameTree d d := fun _ => ⟨rfl, rfl, rfl⟩

lemma sameTree_trans {d1 d2 d3 : Doc} (h1 : sameTree d1 d2) (h2 : sameTree d2 d3) :
    sameTree d1 d3 := by
  intro q
  obtain ⟨a1, b1, c1⟩ := h1 q
  obtain ⟨a2, b2, c2⟩ := h2 q
  exact ⟨a1.trans a2, b1.trans b2, c1.trans c2⟩

lemma sameTree_of_nodes_eq {d1 d2 : Doc} (h : d1.nodes = d2.nodes) : sameTree d1 d2 := by
  intro q; rw [h]; exact ⟨rfl, rfl, rfl⟩

/-- `updateNode` with a field update that keeps kind, parent and child
list produces the same tree. -/
lemma updateNode_sameTree (d : Doc) (k : Nat) (f : NodeRec → NodeRec)
    (hf : ∀ r, (f r).kind = r.kind ∧ (f r).parent = r.parent ∧ (f r).childIds = r.childIds) :
    sameTree (d.updateNode k f) d := by
  intro q
  rw [lookupA_updateNode]
  by_cases hq : q = k
  · rw [if_pos hq, hq]
    cases hk : lookupA d.nodes k with
    | none => exact ⟨rfl, rfl, rfl⟩
    | some r =>
      refine ⟨?_, ?_, ?_⟩ <;> simp [(hf r).1, (hf r).2.1, (hf r).2.2]
  · rw [if_neg hq]
    exact ⟨rfl, rfl, rfl⟩

lemma setDomProp_sameTree (d : Doc) (nid : Nat) (k : String) (v : JSValue) :
    sameTree (setDomProp d nid k v) d := by
  unfold setDomProp
  exact updateNode_sameTree d nid _ (fun r => ⟨rfl, rfl, rfl⟩)

lemma setForgoStateD_sameTree (d : Doc) (n : Nat) (st : NodeAttached) :
    sameTree (setForgoStateD d n st) d := by
  unfold setForgoStateD
  exact updateNode_sameTree d n _ (fun r => ⟨rfl, rfl, rfl⟩)

lemma updateArgs_sameTree (d : Doc) (k : Nat) (f : ArgsElement → ArgsElement) :
    sameTree (d.updateArgs k f) d := by
  apply sameTree_of_nodes_eq
  unfold Doc.updateArgs
  cases lookupA d.argsSt k <;> rfl

lemma setArgsNodes_sameTree (p : List Nat) (nid : Nat) :
    ∀ d : Doc, sameTree (setArgsNodes p nid d) d := by
  induction p with
  | nil => intro d; exact sameTree_refl d
  | cons sid rest ih =>
    intro d
    unfold setArgsNodes
    cases lookupA d.states sid with
    | none => exact ih d
    | some st => exact sameTree_trans (ih _) (updateArgs_sameTree d st.argsId _)

lemma foldl_sameTree {β : Type} (step : Doc → β → Doc)
    (hs : ∀ d b, sameTree (step d b) d) :
    ∀ (l : List β) (d : Doc), sameTree (l.foldl step d) d := by
  intro l
  induction l with
  | nil => intro d; exact sameTree_refl d
  | cons x rest ih =>
    intro d
    rw [List.foldl_cons]
    exact sameTree_trans (ih (step d x)) (hs d x)

lemma applyPropsDiff_sameTree (f : ForgoNode) (nid : Nat) (d : Doc) :
    sameTree (applyPropsDiff f nid d) d := by
  unfold applyPropsDiff
  cases forgoNodeProps f with
  | none => exact sameTree_refl d
  | some newProps =>
    simp only
    refine sameTree_trans
      (foldl_sameTree _ (fun x kv => setDomProp_sameTree x nid kv.1 kv.2) newProps.attrs _) ?_
    split
    · split
      · refine foldl_sameTree _ (fun x kv => ?_) _ d
        by_cases hb : (match applyPropsDiff.lookupAttr newProps.attrs kv.1 with
          | some v2 => v2
          | none => JSValue.undef) = kv.2
        · rw [if_pos hb]; exact sameTree_refl x
        · rw [if_neg hb]; exact setDomProp_sameTree x nid kv.1 JSValue.undef
      · exact sameTree_refl d
    · exact sameTree_refl d

lemma attachProps_sameTree (f : ForgoNode) (nid : Nat) (p : List Nat) (d : Doc) :
    sameTree (attachProps f nid p d) d := by
  unfold attachProps
  simp only
  have h1 : sameTree (attachPropsNode f nid p (setArgsNodes p nid d)) d := by
    unfold attachPropsNode
    by_cases hb : isForgoElementB f = true
    · rw [if_pos hb]
      exact sameTree_trans (setForgoStateD_sameTree _ nid _)
        (sameTree_trans (applyPropsDiff_sameTree f nid _) (setArgsNodes_sameTree p nid d))
    · rw [if_neg hb]
      exact sameTree_trans (setForgoStateD_sameTree _ nid _) (setArgsNodes_sameTree p nid d)
  exact sameTree_trans (sameTree_of_nodes_eq rfl) h1

lemma syncStateAndProps_sameTree (f : ForgoNode) (newId targetId : Nat)
    (p : List Nat) (d : Doc) :
    sameTree (syncStateAndProps f newId targetId p d) d := by
  unfold syncStateAndProps
  simp only
  have hAtt := attachProps_sameTree f newId p d
  have hm : ∀ (d2 : Doc) (ids : List Nat) (i : Nat), sameTree (mountComponents d2 ids i) d2 :=
    fun d2 ids i => sameTree_of_nodes_eq rfl
  have hu : ∀ (d2 : Doc) (ids : List Nat) (i : Nat), sameTree (unmountComponents d2 ids i) d2 :=
    fun d2 ids i => sameTree_of_nodes_eq rfl
  cases (getForgoStateD d targetId).map NodeAttached.components with
  | none => exact sameTree_trans (hm _ _ _) hAtt
  | some oldIds =>
    exact sameTree_trans (hm _ _ _) (sameTree_trans (hu _ _ _) hAtt)

lemma childIdsOf_sameTree {d1 d2 : Doc} (h : sameTree d1 d2) (p : Nat) :
    childIdsOf d1 p = childIdsOf d2 p := by
  have := (h p).2.2
  unfold childIdsOf
  cases h1 : lookupA d1.nodes p <;> cases h2 : lookupA d2.nodes p <;>
    rw [h1, h2] at this <;> simp at this <;> simp [this]

/-- `replaceInList` replaces exactly the position of the (unique)
occurrence of the old id. -/
lemma replaceInList_eq_set : ∀ (cs : List Nat) (i : Nat) (target tid : Nat),
    cs.Nodup → cs.get? i = some target →
    replaceInList cs target tid = cs.set i tid := by
  intro cs
  induction cs with
  | nil => intro i target tid _ hg; simp at hg
  | cons x rest ih =>
    intro i target tid hnd hg
    rcases i with _ | j
    · rw [List.get?_cons_zero] at hg
      have hx : x = target := by injection hg
      unfold replaceInList
      rw [if_pos hx]
      rfl
    · rw [List.get?_cons_succ] at hg
      have hx : x ≠ target := by
        intro he
        have : target ∈ rest := List.get?_mem hg
        rw [← he] at this
        exact (List.nodup_cons.mp hnd).1 this
      unfold replaceInList
      rw [if_neg hx]
      rw [ih j target tid (List.nodup_cons.mp hnd).2 hg]
      rfl

/-- `insertBeforeList` inserts exactly at the position of the (unique)
occurrence of the reference id. -/
lemma insertBeforeList_eq_insertIdx : ∀ (cs : List Nat) (i : Nat) (tid r : Nat),
    cs.Nodup → cs.get? i = some r →
    insertBeforeList cs tid r = cs.insertIdx i tid := by
  intro cs
  induction cs with
  | nil => intro i tid r _ hg; simp at hg
  | cons x rest ih =>
    intro i tid r hnd hg
    rcases i with _ | j
    · rw [List.get?_cons_zero] at hg
      have hx : x = r := by injection hg
      unfold insertBeforeList
      rw [if_pos hx]
      rfl
    · rw [List.get?_cons_succ] at hg
      have hx : x ≠ r := by
        intro he
        have : r ∈ rest := List.get?_mem hg
        rw [← he] at this
        exact (List.nodup_cons.mp hnd).1 this
      unfold insertBeforeList
      rw [if_neg hx, ih j tid r (List.nodup_cons.mp hnd).2 hg]
      rfl

lemma removeFromParent_of_parentless (nid : Nat) (d : Doc)
    (h : (lookupA d.nodes nid).map NodeRec.parent = some none ∨ lookupA d.nodes nid = none) :
    removeFromParent nid d = d := by
  unfold removeFromParent
  rcases hk : lookupA d.nodes nid with _ | r
  · rfl
  · rcases h with h | h
    · rw [hk] at h
      simp at h
      simp [h]
    · rw [hk] at h; cases h

lemma updateArgs_nodes (d : Doc) (k : Nat) (f : ArgsElement → ArgsElement) :
    (d.updateArgs k f).nodes = d.nodes := by
  unfold Doc.updateArgs; cases lookupA d.argsSt k <;> rfl

lemma setArgsNodes_nodes (p : List Nat) (nid : Nat) :
    ∀ d : Doc, (setArgsNodes p nid d).nodes = d.nodes := by
  induction p with
  | nil => intro d; rfl
  | cons sid rest ih =>
    intro d
    unfold setArgsNodes
    cases lookupA d.states sid with
    | none => exact ih d
    | some st => rw [ih, updateArgs_nodes]

/-- Node records other than the one props/state are attached to are left
untouched by `attachProps`. -/
lemma attachProps_lookup_other (f : ForgoNode) (nid : Nat) (p : List Nat)
    (d : Doc) (q : Nat) (hq : q ≠ nid) :
    lookupA (attachProps f nid p d).nodes q = lookupA d.nodes q := by
  unfold attachProps
  simp only
  have hstep : ∀ (x : Doc) (kv : String × JSValue),
      lookupA (setDomProp x nid kv.1 kv.2).nodes q = lookupA x.nodes q := by
    intro x kv
    unfold setDomProp
    rw [lookupA_updateNode, if_neg hq]
  have hd : lookupA (attachPropsNode f nid p (setArgsNodes p nid d)).nodes q
      = lookupA d.nodes q := by
    unfold attachPropsNode
    by_cases hb : isForgoElementB f = true
    · rw [if_pos hb]
      unfold setForgoStateD
      rw [lookupA_updateNode, if_neg hq]
      unfold applyPropsDiff
      cases forgoNodeProps f with
      | none => rw [setArgsNodes_nodes]
      | some newProps =>
        simp only
        rw [foldl_preserve (fun x : Doc => lookupA x.nodes q)
          (fun (acc : Doc) (kv : String × JSValue) => setDomProp acc nid kv.1 kv.2)
          hstep]
        split
        · split
          · rw [foldl_preserve (fun x : Doc => lookupA x.nodes q) _
              (fun x kv => ?_) _ _, setArgsNodes_nodes]
            by_cases hb2 : (match applyPropsDiff.lookupAttr newProps.attrs kv.1 with
              | some v2 => v2
              | none => JSValue.undef) = kv.2
            · simp only [if_pos hb2]
            · simp only [if_neg hb2]
              simpa using hstep x (kv.1, JSValue.undef)
          · rw [setArgsNodes_nodes]
        · rw [setArgsNodes_nodes]
    · rw [if_neg hb]
      unfold setForgoStateD
      rw [lookupA_updateNode, if_neg hq, setArgsNodes_nodes]
  exact hd

/-- Node records other than the new node's are left untouched by
`syncStateAndProps`. -/
lemma sync_lookup_other (f : ForgoNode) (newId targetId : Nat) (p : List Nat)
    (d : Doc) (q : Nat) (hq : q ≠ newId) :
    lookupA (syncStateAndProps f newId targetId p d).nodes q = lookupA d.nodes q := by
  unfold syncStateAndProps
  simp only
  cases (getForgoStateD d targetId).map NodeAttached.components with
  | none =>
    show lookupA (mountComponents _ _ _).nodes q = _
    unfold mountComponents
    exact attachProps_lookup_other f newId p d q hq
  | some oldIds =>
    show lookupA (mountComponents (unmountComponents _ _ _) _ _).nodes q = _
    unfold mountComponents unmountComponents
    exact attachProps_lookup_other f newId p d q hq

/-- `replaceWith` on a target with a parent: the child list gets the new
node at the position of the old one; the old node keeps its kind but is
detached. -/
lemma replaceWithOp_spec (d : Doc) (target tid p : Nat) (i : Nat)
    (trec prec : NodeRec)
    (hT : lookupA d.nodes target = some trec) (hpar : trec.parent = some p)
    (hP : lookupA d.nodes p = some prec)
    (htidpar : (lookupA d.nodes tid).map NodeRec.parent = some none)
    (hget : (childIdsOf d p).get? i = some target)
    (hnd : (childIdsOf d p).Nodup)
    (htne : target ≠ tid) (hptid : p ≠ tid) (hptar : p ≠ target) :
    childIdsOf (replaceWithOp target tid d) p = (childIdsOf d p).set i tid
    ∧ (lookupA (replaceWithOp target tid d).nodes target).map NodeRec.kind
        = some trec.kind
    ∧ (lookupA (replaceWithOp target tid d).nodes target).map NodeRec.parent
        = some none
    ∧ (lookupA (replaceWithOp target tid d).nodes tid).map NodeRec.kind
        = (lookupA d.nodes tid).map NodeRec.kind := by
  have hcs : childIdsOf d p = prec.childIds := by unfold childIdsOf; rw [hP]
  have hrm : removeFromParent tid d = d :=
    removeFromParent_of_parentless tid d (Or.inl htidpar)
  have htid2 : ∃ tidrec, lookupA d.nodes tid = some tidrec := by
    cases hk : lookupA d.nodes tid with
    | none => rw [hk] at htidpar; cases htidpar
    | some r => exact ⟨r, rfl⟩
  obtain ⟨tidrec, htid⟩ := htid2
  have hset := replaceInList_eq_set (childIdsOf d p) i target tid hnd hget
  unfold replaceWithOp
  rw [hT]
  simp only [hpar, hrm]
  refine ⟨?_, ?_, ?_, ?_⟩
  · unfold childIdsOf
    rw [lookupA_updateNode, if_neg hptid, lookupA_updateNode, if_neg hptar,
      lookupA_updateNode, if_pos rfl, hP]
    simp [← hcs, hset]
  · rw [lookupA_updateNode, if_neg htne, lookupA_updateNode, if_pos rfl,
      lookupA_updateNode, if_neg (fun h => hptar h.symm), hT]
    rfl
  · rw [lookupA_updateNode, if_neg htne, lookupA_updateNode, if_pos rfl,
      lookupA_updateNode, if_neg (fun h => hptar h.symm), hT]
    rfl
  · rw [lookupA_updateNode, if_pos rfl, lookupA_updateNode,
      if_neg (fun h => htne h.symm), lookupA_updateNode,
      if_neg (fun h => hptid h.symm), htid]
    rfl

/-- `insertBefore` with a current child as reference inserts at that
child's position. -/
lemma insertBeforeOp_spec (d : Doc) (p tid r : Nat) (i : Nat) (prec : NodeRec)
    (hP : lookupA d.nodes p = some prec)
    (htidpar : (lookupA d.nodes tid).map NodeRec.parent = some none)
    (hget : (childIdsOf d p).get? i = some r)
    (hnd : (childIdsOf d p).Nodup) (hptid : p ≠ tid) :
    childIdsOf (insertBeforeOp p tid (some r) d) p
      = (childIdsOf d p).insertIdx i tid := by
  have hcs : childIdsOf d p = prec.childIds := by unfold childIdsOf; rw [hP]
  have hrm : removeFromParent tid d = d :=
    removeFromParent_of_parentless tid d (Or.inl htidpar)
  have hins := insertBeforeList_eq_insertIdx (childIdsOf d p) i tid r hnd hget
  unfold insertBeforeOp
  rw [hrm]
  unfold childIdsOf
  rw [lookupA_updateNode, if_neg hptid, lookupA_updateNode, if_pos rfl, hP]
  simp [← hcs, hins]

/-- `insertBefore` with `undefined` as reference appends. -/
lemma insertBeforeOp_append (d : Doc) (p tid : Nat) (prec : NodeRec)
    (hP : lookupA d.nodes p = some prec)
    (htidpar : (lookupA d.nodes tid).map NodeRec.parent = some none)
    (hptid : p ≠ tid) :
    childIdsOf (insertBeforeOp p tid none d) p = childIdsOf d p ++ [tid] := by
  have hcs : childIdsOf d p = prec.childIds := by unfold childIdsOf; rw [hP]
  have hrm : removeFromParent tid d = d :=
    removeFromParent_of_parentless tid d (Or.inl htidpar)
  unfold insertBeforeOp
  rw [hrm]
  unfold childIdsOf
  rw [lookupA_updateNode, if_neg hptid, lookupA_updateNode, if_pos rfl, hP]
  simp [← hcs]

/-- `prepend` puts the node at the front of the child list. -/
lemma prependOp_spec (d : Doc) (p tid : Nat) (prec : NodeRec)
    (hP : lookupA d.nodes p = some prec)
    (htidpar : (lookupA d.nodes tid).map NodeRec.parent = some none)
    (hptid : p ≠ tid) :
    childIdsOf (prependOp p tid d) p = tid :: childIdsOf d p := by
  have hcs : childIdsOf d p = prec.childIds := by unfold childIdsOf; rw [hP]
  have hrm : removeFromParent tid d = d :=
    removeFromParent_of_parentless tid d (Or.inl htidpar)
  unfold prependOp
  rw [hrm]
  unfold childIdsOf
  rw [lookupA_updateNode, if_neg hptid, lookupA_updateNode, if_pos rfl, hP]
  simp [← hcs]

lemma getAtInt_eq_some {α : Type} (l : List α) (i : Int) (x : α)
    (h : getAtInt l i = some x) : 0 ≤ i ∧ l.get? i.toNat = some x := by
  unfold getAtInt at h
  by_cases hi : i < 0
  · rw [if_pos hi] at h; cases h
  · rw [if_neg hi] at h; exact ⟨by omega, h⟩

lemma createNode_fst (k : NodeKind) (d : Doc) : (createNode k d).1 = d.fresh := rfl

lemma createNode_lookup_eq (k : NodeKind) (d : Doc) :
    lookupA (createNode k d).2.nodes d.fresh
      = some { kind := k, attached := none, domProps := [], childIds := [],
               parent := none } := by
  unfold createNode
  exact lookupA_setA_eq d.nodes d.fresh _

lemma createNode_lookup_ne (k : NodeKind) (d : Doc) (q : Nat) (hq : q ≠ d.fresh) :
    lookupA (createNode k d).2.nodes q = lookupA d.nodes q := by
  unfold createNode
  exact lookupA_setA_ne d.nodes d.fresh q _ hq

lemma createNode_childIds (k : NodeKind) (d : Doc) (q : Nat) (hq : q ≠ d.fresh) :
    childIdsOf (createNode k d).2 q = childIdsOf d q := by
  unfold childIdsOf
  rw [createNode_lookup_ne k d q hq]

/-- C6 (amended): `renderText` always creates a fresh text node; in
search mode with a non-empty window the node at the current position is
replaced only when it is itself a text node — the old text node keeps its
content and is merely detached — while any other occupant makes the fresh
text node be inserted immediately before the current position; with an
empty window the fresh node is prepended when the current index is 0 or
the container is empty and inserted at the current index otherwise. -/
theorem c6_amended_renderText_placement (v : JSValue) (s : SearchOpts)
    (pendingIds : List Nat) (d : Doc) (prec : NodeRec)
    (hP : lookupA d.nodes s.parentElement = some prec)
    (hFresh : lookupA d.nodes d.fresh = none)
    (hnd : (childIdsOf d s.parentElement).Nodup) :
    (∀ (target : Nat) (trec : NodeRec) (c : String),
      s.length ≠ 0 →
      getAtInt (childIdsOf d s.parentElement) s.currentNodeIndex = some target →
      lookupA d.nodes target = some trec →
      trec.kind = .textNode c →
      trec.parent = some s.parentElement →
      s.parentElement ≠ target →
      ∃ d2, renderText v (.search s) pendingIds d = .ok ⟨[d.fresh]⟩ d2
        ∧ childIdsOf d2 s.parentElement
            = (childIdsOf d s.parentElement).set s.currentNodeIndex.toNat d.fresh
        ∧ (lookupA d2.nodes d.fresh).map NodeRec.kind
            = some (.textNode (jsToString v))
        ∧ (lookupA d2.nodes target).map NodeRec.kind = some (.textNode c)
        ∧ (lookupA d2.nodes target).map NodeRec.parent = some none)
    ∧ (∀ (target : Nat) (trec : NodeRec) (t : String),
      s.length ≠ 0 →
      getAtInt (childIdsOf d s.parentElement) s.currentNodeIndex = some target →
      lookupA d.nodes target = some trec →
      trec.kind = .elemNode t →
      ∃ d2, renderText v (.search s) pendingIds d = .ok ⟨[d.fresh]⟩ d2
        ∧ childIdsOf d2 s.parentElement
            = (childIdsOf d s.parentElement).insertIdx s.currentNodeIndex.toNat d.fresh
        ∧ (lookupA d2.nodes d.fresh).map NodeRec.kind
            = some (.textNode (jsToString v)))
    ∧ (s.length = 0 →
      (childIdsOf d s.parentElement).length = 0 ∨ s.currentNodeIndex = 0 →
      ∃ d2, renderText v (.search s) pendingIds d = .ok ⟨[d.fresh]⟩ d2
        ∧ childIdsOf d2 s.parentElement = d.fresh :: childIdsOf d s.parentElement
        ∧ (lookupA d2.nodes d.fresh).map NodeRec.kind
            = some (.textNode (jsToString v)))
    ∧ (∀ (nxt : Nat),
      s.length = 0 →
      ¬ ((childIdsOf d s.parentElement).length = 0 ∨ s.currentNodeIndex = 0) →
      getAtInt (childIdsOf d s.parentElement) s.currentNodeIndex = some nxt →
      ∃ d2, renderText v (.search s) pendingIds d = .ok ⟨[d.fresh]⟩ d2
        ∧ childIdsOf d2 s.parentElement
            = (childIdsOf d s.parentElement).insertIdx s.currentNodeIndex.toNat d.fresh) := by
  have hpne : s.parentElement ≠ d.fresh := by
    intro he; rw [he, hFresh] at hP; cases hP
  have hcs0 : childIdsOf (createNode (.textNode (jsToString v)) d).2 s.parentElement
      = childIdsOf d s.parentElement :=
    createNode_childIds _ d s.parentElement hpne
  have hd0P : lookupA (createNode (.textNode (jsToString v)) d).2.nodes s.parentElement
      = some prec := by rw [createNode_lookup_ne _ d _ hpne, hP]
  -- facts about the document after syncStateAndProps on the fresh node
  have hsyncTree : ∀ targetId,
      sameTree (syncStateAndProps (.prim v) (createNode (.textNode (jsToString v)) d).1
        targetId pendingIds (createNode (.textNode (jsToString v)) d).2)
        (createNode (.textNode (jsToString v)) d).2 :=
    fun targetId => syncStateAndProps_sameTree _ _ _ _ _
  have hsyncOther : ∀ targetId q, q ≠ d.fresh →
      lookupA (syncStateAndProps (.prim v) (createNode (.textNode (jsToString v)) d).1
        targetId pendingIds (createNode (.textNode (jsToString v)) d).2).nodes q
      = lookupA d.nodes q := by
    intro targetId q hq
    rw [createNode_fst]
    rw [sync_lookup_other _ _ _ _ _ q hq]
    exact createNode_lookup_ne _ d q hq
  have hsyncCs : ∀ targetId,
      childIdsOf (syncStateAndProps (.prim v) (createNode (.textNode (jsToString v)) d).1
        targetId pendingIds (createNode (.textNode (jsToString v)) d).2) s.parentElement
      = childIdsOf d s.parentElement := by
    intro targetId
    unfold childIdsOf
    rw [hsyncOther targetId s.parentElement hpne, hP]
  have hsyncP : ∀ targetId,
      lookupA (syncStateAndProps (.prim v) (createNode (.textNode (jsToString v)) d).1
        targetId pendingIds (createNode (.textNode (jsToString v)) d).2).nodes
        s.parentElement = some prec := by
    intro targetId
    rw [hsyncOther targetId s.parentElement hpne, hP]
  have hsyncFreshPar : ∀ targetId,
      (lookupA (syncStateAndProps (.prim v) (createNode (.textNode (jsToString v)) d).1
        targetId pendingIds (createNode (.textNode (jsToString v)) d).2).nodes
        d.fresh).map NodeRec.parent = some none := by
    intro targetId
    have := ((hsyncTree targetId) d.fresh).2.1
    rw [this, createNode_lookup_eq]
    rfl
  have hsyncFreshKind : ∀ targetId,
      (lookupA (syncStateAndProps (.prim v) (createNode (.textNode (jsToString v)) d).1
        targetId pendingIds (createNode (.textNode (jsToString v)) d).2).nodes
        d.fresh).map NodeRec.kind = some (.textNode (jsToString v)) := by
    intro targetId
    have := ((hsyncTree targetId) d.fresh).1
    rw [this, createNode_lookup_eq]
    rfl
  refine ⟨?_, ?_, ?_, ?_⟩
  · -- (a) replace a text occupant
    intro target trec c hlen hT hT2 hkind hparent hPT
    obtain ⟨hTnn, hTget⟩ := getAtInt_eq_some _ _ _ hT
    have htne : target ≠ d.fresh := by
      intro he; rw [he, hFresh] at hT2; cases hT2
    have hnt : nodeTypeOf (createNode (.textNode (jsToString v)) d).2 target = 3 := by
      unfold nodeTypeOf
      rw [createNode_lookup_ne _ d target htne, hT2]
      simp [hkind, NodeKind.nodeType]
    have hsT : lookupA (syncStateAndProps (.prim v)
        (createNode (.textNode (jsToString v)) d).1 target pendingIds
        (createNode (.textNode (jsToString v)) d).2).nodes target
        = some trec := by rw [hsyncOther target target htne, hT2]
    have hspec := replaceWithOp_spec
      (syncStateAndProps (.prim v) (createNode (.textNode (jsToString v)) d).1
        target pendingIds (createNode (.textNode (jsToString v)) d).2)
      target d.fresh s.parentElement s.currentNodeIndex.toNat trec prec
      hsT hparent (hsyncP target) (hsyncFreshPar target)
      (by rw [hsyncCs target]; exact hTget)
      (by rw [hsyncCs target]; exact hnd)
      htne hpne hPT
    refine ⟨replaceWithOp target d.fresh
      (syncStateAndProps (.prim v) (createNode (.textNode (jsToString v)) d).1 target
        pendingIds (createNode (.textNode (jsToString v)) d).2), ?_, ?_, ?_, ?_, ?_⟩
    · simp only [renderText]
      rw [hcs0, if_pos hlen]
      simp only [hT]
      rw [if_pos hnt]
      rfl
    · rw [hspec.1, hsyncCs target]
    · rw [hspec.2.2.2, hsyncFreshKind target]
    · rw [hspec.2.1, hkind]
    · exact hspec.2.2.1
  · -- (b) insert before an element occupant
    intro target trec t hlen hT hT2 hkind
    obtain ⟨hTnn, hTget⟩ := getAtInt_eq_some _ _ _ hT
    have htne : target ≠ d.fresh := by
      intro he; rw [he, hFresh] at hT2; cases hT2
    have hnt : ¬ nodeTypeOf (createNode (.textNode (jsToString v)) d).2 target = 3 := by
      unfold nodeTypeOf
      rw [createNode_lookup_ne _ d target htne, hT2]
      simp [hkind, NodeKind.nodeType]
    have hnext : getAtInt (childIdsOf (syncStateAndProps (.prim v)
        (createNode (.textNode (jsToString v)) d).1
        (createNode (.textNode (jsToString v)) d).1 pendingIds
        (createNode (.textNode (jsToString v)) d).2) s.parentElement)
        s.currentNodeIndex = some target := by
      rw [hsyncCs]; exact hT
    have hspec := insertBeforeOp_spec
      (syncStateAndProps (.prim v) (createNode (.textNode (jsToString v)) d).1
        (createNode (.textNode (jsToString v)) d).1 pendingIds
        (createNode (.textNode (jsToString v)) d).2)
      s.parentElement d.fresh target s.currentNodeIndex.toNat prec
      (hsyncP _) (hsyncFreshPar _)
      (by rw [hsyncCs]; exact hTget)
      (by rw [hsyncCs]; exact hnd) hpne
    have hible : (lookupA (insertBeforeOp s.parentElement d.fresh (some target)
        (syncStateAndProps (.prim v) (createNode (.textNode (jsToString v)) d).1
          (createNode (.textNode (jsToString v)) d).1 pendingIds
          (createNode (.textNode (jsToString v)) d).2)).nodes d.fresh).map
        NodeRec.kind
        = (lookupA (syncStateAndProps (.prim v)
            (createNode (.textNode (jsToString v)) d).1
            (createNode (.textNode (jsToString v)) d).1 pendingIds
            (createNode (.textNode (jsToString v)) d).2).nodes d.fresh).map
          NodeRec.kind := by
      unfold insertBeforeOp
      rw [removeFromParent_of_parentless _ _ (Or.inl (hsyncFreshPar _))]
      rw [lookupA_updateNode, if_pos rfl, lookupA_updateNode,
        if_neg (fun h => hpne h.symm)]
      cases hx : lookupA (syncStateAndProps (.prim v)
          (createNode (.textNode (jsToString v)) d).1
          (createNode (.textNode (jsToString v)) d).1 pendingIds
          (createNode (.textNode (jsToString v)) d).2).nodes d.fresh <;> rfl
    refine ⟨insertBeforeOp s.parentElement d.fresh (some target)
      (syncStateAndProps (.prim v) (createNode (.textNode (jsToString v)) d).1
        (createNode (.textNode (jsToString v)) d).1 pendingIds
        (createNode (.textNode (jsToString v)) d).2), ?_, ?_, ?_⟩
    · simp only [renderText]
      rw [hcs0, if_pos hlen]
      simp only [hT]
      rw [if_neg hnt, hnext]
      rfl
    · rw [hspec, hsyncCs]
    · rw [hible, hsyncFreshKind]
  · -- (c) empty window, prepend
    intro hlen hidx
    have hspec := prependOp_spec
      (syncStateAndProps (.prim v) (createNode (.textNode (jsToString v)) d).1
        (createNode (.textNode (jsToString v)) d).1 pendingIds
        (createNode (.textNode (jsToString v)) d).2)
      s.parentElement d.fresh prec (hsyncP _) (hsyncFreshPar _) hpne
    have hible : (lookupA (prependOp s.parentElement d.fresh
        (syncStateAndProps (.prim v) (createNode (.textNode (jsToString v)) d).1
          (createNode (.textNode (jsToString v)) d).1 pendingIds
          (createNode (.textNode (jsToString v)) d).2)).nodes d.fresh).map
        NodeRec.kind
        = (lookupA (syncStateAndProps (.prim v)
            (createNode (.textNode (jsToString v)) d).1
            (createNode (.textNode (jsToString v)) d).1 pendingIds
            (createNode (.textNode (jsToString v)) d).2).nodes d.fresh).map
          NodeRec.kind := by
      unfold prependOp
      rw [removeFromParent_of_parentless _ _ (Or.inl (hsyncFreshPar _))]
      rw [lookupA_updateNode, if_pos rfl, lookupA_updateNode,
        if_neg (fun h => hpne h.symm)]
      cases hx : lookupA (syncStateAndProps (.prim v)
          (createNode (.textNode (jsToString v)) d).1
          (createNode (.textNode (jsToString v)) d).1 pendingIds
          (createNode (.textNode (jsToString v)) d).2).nodes d.fresh <;> rfl
    refine ⟨prependOp s.parentElement d.fresh
      (syncStateAndProps (.prim v) (createNode (.textNode (jsToString v)) d).1
        (createNode (.textNode (jsToString v)) d).1 pendingIds
        (createNode (.textNode (jsToString v)) d).2), ?_, ?_, ?_⟩
    · simp only [renderText]
      rw [hcs0]
      rw [if_neg (by simpa using hlen)]
      rw [hsyncCs, if_pos hidx]
      rfl
    · rw [hspec, hsyncCs]
    · rw [hible, hsyncFreshKind]
  · -- (d) empty window, insert at the occupied index
    intro nxt hlen hidx hnxt
    obtain ⟨hNnn, hNget⟩ := getAtInt_eq_some _ _ _ hnxt
    have hnext : getAtInt (childIdsOf (syncStateAndProps (.prim v)
        (createNode (.textNode (jsToString v)) d).1
        (createNode (.textNode (jsToString v)) d).1 pendingIds
        (createNode (.textNode (jsToString v)) d).2) s.parentElement)
        s.currentNodeIndex = some nxt := by
      rw [hsyncCs]; exact hnxt
    have hspec := insertBeforeOp_spec
      (syncStateAndProps (.prim v) (createNode (.textNode (jsToString v)) d).1
        (createNode (.textNode (jsToString v)) d).1 pendingIds
        (createNode (.textNode (jsToString v)) d).2)
      s.parentElement d.fresh nxt s.currentNodeIndex.toNat prec
      (hsyncP _) (hsyncFreshPar _)
      (by rw [hsyncCs]; exact hNget)
      (by rw [hsyncCs]; exact hnd) hpne
    refine ⟨insertBeforeOp s.parentElement d.fresh (some nxt)
      (syncStateAndProps (.prim v) (createNode (.textNode (jsToString v)) d).1
        (createNode (.textNode (jsToString v)) d).1 pendingIds
        (createNode (.textNode (jsToString v)) d).2), ?_, ?_⟩
    · simp only [renderText]
      rw [hcs0]
      rw [if_neg (by simpa using hlen)]
      rw [hsyncCs, if_neg hidx, hnxt]
      rfl
    · rw [hspec, hsyncCs]

/-- A container element (id 0) whose only child (id 1) is a span element. -/
def elemChildDoc : Doc :=
  { nodes := [(0, { kind := .elemNode "div", attached := none, domProps := [],
                    childIds := [1], parent := none }),
              (1, { kind := .elemNode "span", attached := none, domProps := [],
                    childIds := [], parent := some 0 })],
    states := [], argsSt := [], refsSt := [], events := [], fresh := 100 }

/-- C6 counterexample: with a non-empty window whose current occupant is
an element node, `renderText` inserts the fresh text node before it and
the old node survives as a child (children become [100, 1]), instead of
replacing it as the claim states (which would leave [100] only). -/
theorem c6_counterexample :
    (match renderText (.str "x")
        (.search { parentElement := 0, currentNodeIndex := 0, length := 1 })
        [] elemChildDoc with
      | .ok rr d2 => (rr.nodes, childIdsOf d2 0)
      | .err _ _ => ([], [])) = ([100], [100, 1]) := by
  decide

/-- Witness for the amended C6 theorem on `elemChildDoc`. -/
theorem c6_amended_renderText_placement_witness :
    ∃ d2, renderText (.str "x")
        (.search { parentElement := 0, currentNodeIndex := 0, length := 1 })
        [] elemChildDoc = .ok ⟨[100]⟩ d2
      ∧ childIdsOf d2 0 = [100, 1]
      ∧ (lookupA d2.nodes 100).map NodeRec.kind = some (.textNode "x") := by
  have h := (c6_amended_renderText_placement (.str "x")
    { parentElement := 0, currentNodeIndex := 0, length := 1 } [] elemChildDoc
    _ rfl rfl (by decide)).2.1 1 _ "span" (by decide) rfl rfl rfl
  obtain ⟨d2, h1, h2, h3⟩ := h
  refine ⟨d2, h1, ?_, h3⟩
  rw [h2]
  decide

/-!  C3 — the error boundary. -/

/-- The boundary's `catch`: a caught JavaScript exception with a present
`error` capability renders the capability's output with the boundary
component's own insertion options, against the document as mutated so far
plus the logged invocation. -/
lemma withErrorBoundary_catch (ctors : Nat → PropsData → ComponentVal)
    (fuel : Nat) (props : PropsData) (argsId : Nat) (states : List Nat)
    (b : ComponentVal) (f : PropsData → RenderArgs → EngErr → ForgoNode)
    (opts : InsOpts) (e : EngErr) (df : Doc)
    (hf : b.errorFn = some f) (he : e ≠ .fuelOut) :
    withErrorBoundary ctors (fuel + 1) props argsId states (some b) opts (.err e df)
      = internalRender ctors fuel (f props { element := argsValOf df argsId } e) opts
          states (logEvent (.errorEv e) df) := by
  unfold withErrorBoundary
  cases e with
  | fuelOut => exact absurd rfl he
  | structural m => simp [hf]
  | typeErr m => simp [hf]
  | thrown v => simp [hf]

/-- The boundary's rethrow: without a boundary the exception propagates
unchanged, with the document in its mutated state. -/
lemma withErrorBoundary_rethrow (ctors : Nat → PropsData → ComponentVal)
    (fuel : Nat) (props : PropsData) (argsId : Nat) (states : List Nat)
    (opts : InsOpts) (e : EngErr) (df : Doc) :
    withErrorBoundary ctors (fuel + 1) props argsId states none opts (.err e df)
      = .err e df := by
  unfold withErrorBoundary
  cases e <;> rfl

/-- The document state reached by `addNewComponent` just after invoking
the new component's `render` (args allocated, state record allocated, the
render invocation logged): the new args id, the new state id and the
document. -/
def addNewComponentPre (ctors : Nat → PropsData → ComponentVal) (cid : Nat)
    (key : Option JSValue) (props : PropsData) (pending : List Nat) (d : Doc) :
    Nat × Nat × Doc :=
  let pa := allocArgs { node := none, componentIndex := pending.length } d
  let ps := allocState
    { key := key, ctorId := cid, comp := ctors cid props, props := props,
      argsId := pa.1, numNodes := 0 } pa.2
  (pa.1, ps.1, logEvent (.renderEv ps.1) ps.2)

/-- The document state reached by `renderExistingComponent` just after
invoking the reused component's `render`: the replacement state id and
the document. -/
def renderExistingPre (props : PropsData) (st : CompState) (d : Doc) : Nat × Doc :=
  let p := allocState { st with props := props } d
  (p.1, logEvent (.renderEv p.1) p.2)

/-- C3 (amended): the error-boundary behaviour of the engine.
(i) A caught exception (any JavaScript exception, i.e. anything but the
fuel artefact) with a boundary exposing `error` invokes the capability
with the thrown value against the current args and renders its returned
description with the boundary component's own insertion context, the
exception being swallowed; (ii) with no boundary the exception is
rethrown to the caller; (iii) on first instantiation a component whose
`render` throws and which itself exposes `error` is caught by its own
boundary — the capability's output is rendered in place; (iv) on reuse,
`render` is invoked before (and outside) `withErrorBoundary`, so the
throw propagates out of `renderExistingComponent` whether or not the
component exposes `error`: only an enclosing (ancestor) boundary, whose
`withErrorBoundary` frame wraps the call, can catch it. -/
theorem c3_amended_error_boundary (ctors : Nat → PropsData → ComponentVal) :
    (∀ (fuel : Nat) (props : PropsData) (argsId : Nat) (states : List Nat)
        (b : ComponentVal) (f : PropsData → RenderArgs → EngErr → ForgoNode)
        (opts : InsOpts) (e : EngErr) (df : Doc),
      b.errorFn = some f → e ≠ .fuelOut →
      withErrorBoundary ctors (fuel + 1) props argsId states (some b) opts (.err e df)
        = internalRender ctors fuel (f props { element := argsValOf df argsId } e) opts
            states (logEvent (.errorEv e) df))
    ∧ (∀ (fuel : Nat) (props : PropsData) (argsId : Nat) (states : List Nat)
        (opts : InsOpts) (e : EngErr) (df : Doc),
      withErrorBoundary ctors (fuel + 1) props argsId states none opts (.err e df)
        = .err e df)
    ∧ (∀ (fuel : Nat) (cid : Nat) (key : Option JSValue) (props : PropsData)
        (opts : InsOpts) (pending : List Nat) (d : Doc)
        (f : PropsData → RenderArgs → EngErr → ForgoNode) (v : JSValue),
      (ctors cid props).hasRender = true →
      (ctors cid props).errorFn = some f →
      (∀ args, (ctors cid props).render props args = .error v) →
      addNewComponent ctors (fuel + 2) cid key props opts pending d
        = internalRender ctors fuel
            (f props
              { element := argsValOf (addNewComponentPre ctors cid key props pending d).2.2
                  (addNewComponentPre ctors cid key props pending d).1 }
              (.thrown v))
            opts (pending ++ [(addNewComponentPre ctors cid key props pending d).2.1])
            (logEvent (.errorEv (.thrown v)) (addNewComponentPre ctors cid key props pending d).2.2))
    ∧ (∀ (fuel : Nat) (cid : Nat) (props : PropsData) (s : SearchOpts) (sid : Nat)
        (pending : List Nat) (d : Doc) (st : CompState) (v : JSValue),
      lookupA d.states sid = some st →
      (st.comp.shouldUpdate = none
        ∨ ∃ f2, st.comp.shouldUpdate = some f2 ∧ f2 props st.props = true) →
      (∀ args, st.comp.render props args = .error v) →
      renderExistingComponent ctors (fuel + 1) cid props s sid pending d
        = .err (.thrown v) (renderExistingPre props st d).2) := by
  refine ⟨withErrorBoundary_catch ctors, withErrorBoundary_rethrow ctors, ?_, ?_⟩
  · intro fuel cid key props opts pending d f v hR hb hr
    unfold addNewComponent
    simp only [hR, Bool.true_eq_false, if_false, hr]
    have hbs : (ctors cid props).errorFn.isSome = true := by rw [hb]; rfl
    simp only [hbs, if_true]
    rw [withErrorBoundary_catch ctors fuel _ _ _ _ _ _ _ _ hb (by simp)]
    rfl
  · intro fuel cid props s sid pending d st v hst hsu hr
    unfold renderExistingComponent
    rw [hst]
    have hpr : (match st.comp.shouldUpdate with
        | none => true
        | some f => f props st.props) = true := by
      rcases hsu with h | ⟨f2, h1, h2⟩
      · rw [h]
      · rw [h1]; exact h2
    simp only [hpr, if_true, hr]
    rfl

/-- A component that throws the string "boom" from `render` and exposes an
`error` capability that would render the text "recovered". -/
def boomComp : ComponentVal :=
  { hasRender := true, render := fun _ _ => .error (.str "boom"),
    errorFn := some (fun _ _ _ => .prim (.str "recovered")),
    hasMount := false, hasUnmount := false, hasAfterRender := false,
    shouldUpdate := none }

/-- The mounted state record of `boomComp` on node 1. -/
def boomState : CompState :=
  { key := none, ctorId := 7, comp := boomComp, props := .mk none none [],
    argsId := 20, numNodes := 1 }

/-- A container (id 0) holding one text child (id 1) that carries the
mounted `boomComp` instance (state id 10, args id 20). -/
def boomDoc : Doc :=
  { nodes := [(0, { kind := .elemNode "div", attached := none, domProps := [],
                    childIds := [1], parent := none }),
              (1, { kind := .textNode "x",
                    attached := some { key := none, props := none, components := [10] },
                    domProps := [], childIds := [], parent := some 0 })],
    states := [(10, boomState)],
    argsSt := [(20, { node := some 1, componentIndex := 0 })],
    refsSt := [], events := [], fresh := 100 }

/-- C3 (counterexample): a mounted component exposes the `error`
capability, yet a rerender during which its `render` throws propagates
the thrown value "boom" to the entry-point caller; the returned document
logs only the render invocation — the error capability is never invoked
(no error event), so the exception is not swallowed by the component's
own boundary. -/
theorem c3_counterexample :
    boomComp.errorFn.isSome = true
    ∧ (match rerender noCtors 50 (some { node := some 1, componentIndex := 0 })
          none true boomDoc with
       | .err (.eng (.thrown v)) d2 => some (v, d2.events)
       | _ => none)
      = some (.str "boom", [.renderEv 100]) :=
  ⟨rfl, by decide⟩

/-- Witness: part (iv) of the amended error-boundary theorem at the
concrete `boomDoc` — the reused throwing component's exception escapes
`renderExistingComponent` even though its `errorFn` is present. -/
theorem c3_amended_error_boundary_witness :
    lookupA boomDoc.states 10 = some boomState
    ∧ renderExistingComponent noCtors 5 7 (.mk none none [])
        { parentElement := 0, currentNodeIndex := 0, length := 1 } 10 [] boomDoc
      = .err (.thrown (.str "boom"))
          (renderExistingPre (.mk none none []) boomState boomDoc).2 :=
  ⟨rfl, (c3_amended_error_boundary noCtors).2.2.2 4 7 (.mk none none [])
      { parentElement := 0, currentNodeIndex := 0, length := 1 } 10 [] boomDoc boomState
      (.str "boom") rfl (Or.inl rfl) (fun _ => rfl)⟩

/-!  C7 — children flattening and stale-tail removal. -/

mutual
/-- One entry of the flattening as the spec words it: an array recurses,
a null/undefined entry is dropped, anything else is kept. -/
def flattenDropOne : ForgoNode → List ForgoNode
  | .arr xs => flattenDropNodes xs
  | x => if isNullOrUndef x then [] else [x]
termination_by structural x => x

/-- Recursive flattening that drops null/undefined entries at every
nesting level — the flattening as the spec words it. -/
def flattenDropNodes : List ForgoNode → List ForgoNode
  | [] => []
  | x :: rest => flattenDropOne x ++ flattenDropNodes rest
termination_by structural l => l
end

/-- The child sequence as the spec words it: flatten the children prop
recursively into one ordered sequence, dropping every null and undefined
entry, including entries nested inside inner arrays. -/
def childSequenceClaim (props : PropsData) : List ForgoNode :=
  flattenDropNodes
    (match props.children with
     | some (.arr xs) => xs
     | some x => [x]
     | none => [])

/-- The child sequence as amended: wrap the children prop into an array
if it is a single value, drop null and undefined entries of that
top-level array only, then recursively flatten nested arrays, keeping
whatever they contain. -/
def childSequenceAmended (props : PropsData) : List ForgoNode :=
  flattenNodes
    (match props.children with
     | some (.arr xs) => xs.filter (fun x => ! isNullOrUndef x)
     | some x => if isNullOrUndef x then [] else [x]
     | none => [])

/-- The children prop `[["a", null]]`: a nested array containing null. -/
def propsC : PropsData :=
  .mk (some (.arr [.arr [.prim (.str "a"), .prim .null]])) none []

/-- An empty document. -/
def blankDoc : Doc :=
  { nodes := [], states := [], argsSt := [], refsSt := [], events := [], fresh := 100 }

/-- C7 (counterexample): a null nested inside an inner array of the
children prop is not dropped: the spec's sequence for `[["a", null]]`
has one entry but the walked sequence has two, and the detached render
of a div with these children produces an element with two text-node
children, "a" and the empty string — the nested null renders as an
empty text node instead of being removed. -/
theorem c7_counterexample :
    (childSequenceClaim propsC).length = 1
    ∧ (childSequenceOf propsC).length = 2
    ∧ (match internalRender noCtors 50 (.elem "div" none propsC) .detached [] blankDoc with
       | .ok rr d2 => some (rr.nodes, childIdsOf d2 100,
           (childIdsOf d2 100).map (nodeTypeOf d2),
           (childIdsOf d2 100).map (fun i =>
             match lookupA d2.nodes i with
             | some r => (match r.kind with | .textNode s => some s | _ => none)
             | none => none))
       | _ => none)
      = some ([100], [101, 102], [3, 3], [some "a", some ""]) :=
  ⟨rfl, rfl, by decide⟩

lemma unmountComponents_nodes (d : Doc) (ids : List Nat) (i : Nat) :
    (unmountComponents d ids i).nodes = d.nodes := rfl

/-- `removeFromParent` leaves every node other than the removed node and
its parent untouched. -/
lemma removeFromParent_lookup_other (d : Doc) (x pid : Nat) (xr : NodeRec) (q : Nat)
    (hx : lookupA d.nodes x = some xr) (hxp : xr.parent = some pid)
    (hq1 : q ≠ x) (hq2 : q ≠ pid) :
    lookupA (removeFromParent x d).nodes q = lookupA d.nodes q := by
  simp only [removeFromParent, hx, hxp]
  rw [lookupA_updateNode, if_neg hq1, lookupA_updateNode, if_neg hq2]

/-- `removeFromParent` erases the removed node from its parent's child
list and changes nothing else of the parent's record. -/
lemma removeFromParent_lookup_parent (d : Doc) (x pid : Nat) (xr : NodeRec)
    (hx : lookupA d.nodes x = some xr) (hxp : xr.parent = some pid) (hne : pid ≠ x) :
    lookupA (removeFromParent x d).nodes pid
      = (lookupA d.nodes pid).map (fun pr => { pr with childIds := pr.childIds.erase x }) := by
  simp only [removeFromParent, hx, hxp]
  rw [lookupA_updateNode, if_neg hne, lookupA_updateNode, if_pos rfl]

/-- `unloadNodes` over a duplicate-free list of children of one parent
erases exactly those entries from the parent's child list. -/
lemma unloadNodes_childIds : ∀ (xs : List Nat) (d : Doc) (pid : Nat),
    xs.Nodup → pid ∉ xs →
    (∀ x ∈ xs, ∃ xr, lookupA d.nodes x = some xr ∧ xr.parent = some pid) →
    childIdsOf (unloadNodes xs d) pid
      = xs.foldl (fun l x => l.erase x) (childIdsOf d pid) := by
  intro xs
  induction xs with
  | nil => intro d pid _ _ _; rfl
  | cons x rest ih =>
    intro d pid hnd hpm hpar
    obtain ⟨xr, hx, hxp⟩ := hpar x (List.mem_cons_self x rest)
    have hxpid : x ≠ pid := by rintro rfl; exact hpm (List.mem_cons_self x rest)
    obtain ⟨dpre, hdpre⟩ : ∃ dp, (match getForgoStateD d x with
        | some st => unmountComponents d st.components 0
        | none => d) = dp := ⟨_, rfl⟩
    have hpre : dpre.nodes = d.nodes := by
      rw [← hdpre]; cases getForgoStateD d x <;> rfl
    have hstep : unloadNodes (x :: rest) d = unloadNodes rest (removeFromParent x dpre) := by
      simp only [unloadNodes]
      rw [hdpre]
    have hx' : lookupA dpre.nodes x = some xr := by rw [hpre]; exact hx
    have hrm_other : ∀ q, q ≠ x → q ≠ pid →
        lookupA (removeFromParent x dpre).nodes q = lookupA d.nodes q := by
      intro q h1 h2
      rw [removeFromParent_lookup_other dpre x pid xr q hx' hxp h1 h2, hpre]
    have hrm_parent : childIdsOf (removeFromParent x dpre) pid = (childIdsOf d pid).erase x := by
      unfold childIdsOf
      rw [removeFromParent_lookup_parent dpre x pid xr hx' hxp (Ne.symm hxpid), hpre]
      cases lookupA d.nodes pid <;> rfl
    have hrest : ∀ y ∈ rest, ∃ yr,
        lookupA (removeFromParent x dpre).nodes y = some yr ∧ yr.parent = some pid := by
      intro y hy
      obtain ⟨yr, hy1, hy2⟩ := hpar y (List.mem_cons_of_mem x hy)
      have hyx : y ≠ x := by rintro rfl; exact (List.nodup_cons.mp hnd).1 hy
      have hypid : y ≠ pid := by rintro rfl; exact hpm (List.mem_cons_of_mem x hy)
      exact ⟨yr, by rw [hrm_other y hyx hypid]; exact hy1, hy2⟩
    rw [hstep, ih (removeFromParent x dpre) pid (List.nodup_cons.mp hnd).2
        (fun hm => hpm (List.mem_cons_of_mem x hm)) hrest, hrm_parent]
    rfl

/-- Erasing, in order, every element of the suffix of a duplicate-free
list from the whole list leaves the prefix. -/
lemma foldl_erase_append : ∀ (suf pre : List Nat), (pre ++ suf).Nodup →
    suf.foldl (fun l x => l.erase x) (pre ++ suf) = pre := by
  intro suf
  induction suf with
  | nil => intro pre _; simp
  | cons x rest ih =>
    intro pre hnd
    obtain ⟨h1, h2, h3⟩ := List.nodup_append.mp hnd
    have hx : x ∉ pre := fun hm => h3 hm (List.mem_cons_self x rest)
    have hnd2 : (pre ++ rest).Nodup := List.nodup_append.mpr
      ⟨h1, (List.nodup_cons.mp h2).2, fun a ha hb => h3 ha (List.mem_cons_of_mem x hb)⟩
    have herase : (pre ++ x :: rest).erase x = pre ++ rest := by
      rw [List.erase_append_right _ hx, List.erase_cons_head]
    show rest.foldl (fun l x => l.erase x) ((pre ++ x :: rest).erase x) = pre
    rw [herase]
    exact ih pre hnd2

/-- C7 (amended): (i) the walked child sequence wraps the children prop
into an array if it is a single value, drops null/undefined entries at
the top level only, and then recursively flattens nested arrays; (ii)
the entries of a nested inner array are contributed to the sequence
unfiltered; (iii) stale-tail removal: when the left-to-right walk of
the child sequence succeeds having consumed `consumed` positions, the
parent keeps exactly the first `consumed` entries of its child list —
every live child beyond the consumed count is removed. -/
theorem c7_amended_children_reconciliation (ctors : Nat → PropsData → ComponentVal) :
    (∀ props : PropsData, childSequenceOf props = childSequenceAmended props)
    ∧ (∀ (ys rest : List ForgoNode) (r : Option Nat) (a : List (String × JSValue)),
        childSequenceOf (.mk (some (.arr (.arr ys :: rest))) r a)
          = flattenNodes ys ++ childSequenceOf (.mk (some (.arr rest)) r a))
    ∧ (∀ (fuel : Nat) (props : PropsData) (pid : Nat) (d : Doc)
        (consumed : Nat) (d1 : Doc),
        childLoop ctors fuel (childSequenceOf props) 0 pid d = .ok consumed d1 →
        (childIdsOf d1 pid).Nodup →
        pid ∉ childIdsOf d1 pid →
        (∀ x ∈ (childIdsOf d1 pid).drop consumed,
          ∃ xr, lookupA d1.nodes x = some xr ∧ xr.parent = some pid) →
        ∃ d2, renderDOMElementChildNodes ctors (fuel + 1) props pid d = .ok () d2
          ∧ childIdsOf d2 pid = (childIdsOf d1 pid).take consumed) := by
  refine ⟨?_, ?_, ?_⟩
  · intro props
    cases props with
    | mk c r a =>
      cases c with
      | none => rfl
      | some x =>
        cases x with
        | arr xs => rfl
        | prim v => cases v <;> rfl
        | elem t k p => rfl
        | comp i k p => rfl
  · intro ys rest r a
    rfl
  · intro fuel props pid d consumed d1 hloop hnd hpm hpar
    refine ⟨unloadNodes ((childIdsOf d1 pid).drop consumed) d1, ?_, ?_⟩
    · simp only [renderDOMElementChildNodes, hloop]
    · rw [unloadNodes_childIds ((childIdsOf d1 pid).drop consumed) d1 pid
          (List.Nodup.sublist (List.drop_sublist _ _) hnd)
          (fun hm => hpm (List.mem_of_mem_drop hm)) hpar]
      have key := foldl_erase_append ((childIdsOf d1 pid).drop consumed)
        ((childIdsOf d1 pid).take consumed)
        (by rw [List.take_append_drop]; exact hnd)
      rw [List.take_append_drop] at key
      exact key

/-- A container (id 0) with two existing text children (ids 1 and 2). -/
def twoChildDoc : Doc :=
  { nodes := [(0, { kind := .elemNode "div", attached := none, domProps := [],
                    childIds := [1, 2], parent := none }),
              (1, { kind := .textNode "x", attached := none, domProps := [],
                    childIds := [], parent := some 0 }),
              (2, { kind := .textNode "y", attached := none, domProps := [],
                    childIds := [], parent := some 0 })],
    states := [], argsSt := [], refsSt := [], events := [], fresh := 100 }

/-- The container's record after the child walk of the witness run:
the first stale child replaced by the fresh text node 100. -/
def walkedContainerRec : NodeRec :=
  { kind := .elemNode "div", attached := none, domProps := [],
    childIds := [100, 2], parent := none }

/-- The surviving stale child's record after the child walk of the
witness run. -/
def staleChildRec : NodeRec :=
  { kind := .textNode "y", attached := none, domProps := [],
    childIds := [], parent := some 0 }

/-- Witness: stale-tail removal at a concrete document — rendering the
single child "a" over a container with two stale text children consumes
one position (the first stale child is replaced by the fresh text node)
and the remaining stale child is removed. -/
theorem c7_amended_children_reconciliation_witness :
    ∃ d2, renderDOMElementChildNodes noCtors 21
        (.mk (some (.prim (.str "a"))) none []) 0 twoChildDoc = .ok () d2
      ∧ childIdsOf d2 0 = [100] := by
  obtain ⟨d1, hloop, hnode0, hnode2⟩ :
      ∃ d1, childLoop noCtors 20
          (childSequenceOf (.mk (some (.prim (.str "a"))) none [])) 0 0 twoChildDoc
          = .ok 1 d1
        ∧ lookupA d1.nodes 0 = some walkedContainerRec
        ∧ lookupA d1.nodes 2 = some staleChildRec := ⟨_, rfl, rfl, rfl⟩
  have hchild : childIdsOf d1 0 = [100, 2] := by unfold childIdsOf; rw [hnode0]; rfl
  have h := (c7_amended_children_reconciliation noCtors).2.2 20
    (.mk (some (.prim (.str "a"))) none []) 0 twoChildDoc 1 d1 hloop
    (by rw [hchild]; decide) (by rw [hchild]; decide)
    (by
      rw [hchild]
      intro x hx
      simp only [List.drop, List.mem_singleton] at hx
      subst hx
      exact ⟨staleChildRec, hnode2, rfl⟩)
  obtain ⟨d2, hrun, htake⟩ := h
  exact ⟨d2, hrun, by rw [htake, hchild]; rfl⟩

end Forgo
